/-
  Verification of the LoW-to-SSIM converter (main_v1.py).

  The development shallowly embeds the program's pure core: the flexible
  date parser, the static US timezone estimator, the leg-sequence sort of
  read_low_csv, and the chained SSIM writer write_ssim_with_segments with
  its record builders and find_connecting_shell.  Python strings are Lean
  strings, Python dict-access with defaults is Option String, Python
  exceptions are Option results, and the system clock is an explicit
  parameter.
-/
import Mathlib

namespace SSIM

/-! ### Python string primitives -/

/-- Python `s.ljust(w, c)`: pad on the right with `c` up to width `w`
(no change when `s` is already at least `w` long). -/
def ljust (s : String) (w : Nat) (c : Char) : String :=
  String.mk (s.data ++ List.replicate (w - s.data.length) c)

/-- Python `s.rjust(w, c)`: pad on the left with `c` up to width `w`. -/
def rjust (s : String) (w : Nat) (c : Char) : String :=
  String.mk (List.replicate (w - s.data.length) c ++ s.data)

/-- Python `s[:n]`: the first `n` characters (all of `s` when shorter). -/
def sliceTo (s : String) (n : Nat) : String :=
  String.mk (s.data.take n)

/-- Python `s[-n:]`: the last `n` characters; for `n = 0` Python returns
the whole string (`s[-0:] = s[0:]`). -/
def sliceLast (s : String) (n : Nat) : String :=
  if n = 0 then s else String.mk (s.data.drop (s.data.length - n))

/-- `pad_right` from main_v1.py: `str(s)[:length].ljust(length)`. -/
def pad_right (s : String) (length : Nat) : String :=
  ljust (sliceTo s length) length ' '

/-- `pad_left` from main_v1.py: `str(s)[-length:].rjust(length, fill)`. -/
def pad_left (s : String) (length : Nat) (fill : Char) : String :=
  rjust (sliceLast s length) length fill

/-- Python `s.zfill(w)`: left-pad with `'0'`, keeping a leading sign in place. -/
def zfill (s : String) (w : Nat) : String :=
  match s.data with
  | c :: rest =>
      if c = '+' ∨ c = '-' then
        String.mk (c :: (List.replicate (w - s.data.length) '0' ++ rest))
      else rjust s w '0'
  | [] => rjust s w '0'

/-- Python `s.upper()` (ASCII), character by character. -/
def pyUpper (s : String) : String :=
  String.mk (s.data.map Char.toUpper)

/-- The character range `s[start : start+len]` (0-indexed), used to state
claims about byte positions inside fixed-width records. -/
def sliceStr (s : String) (start len : Nat) : String :=
  String.mk ((s.data.drop start).take len)

/-- Concatenation of a list of fields into one line. -/
def fieldsData (ls : List String) : List Char :=
  (ls.map String.data).flatten

/-- Concatenation of a list of fields into one line, as a string. -/
def cat (ls : List String) : String :=
  String.mk (fieldsData ls)

/-! ### Python `int()` on strings -/

/-- Whitespace accepted by Python's `str.strip()` and `int()`. -/
def pyWhitespace (c : Char) : Bool :=
  c = ' ' ∨ c = '\t' ∨ c = '\n' ∨ c = '\x0b' ∨ c = '\x0c' ∨ c = '\r'

/-- Python `s.strip()`. -/
def pyStrip (s : String) : String :=
  String.mk ((s.data.dropWhile pyWhitespace).reverse.dropWhile pyWhitespace
    |>.reverse)

def digitVal (c : Char) : Nat := c.toNat - '0'.toNat

def isDigitChar (c : Char) : Bool := '0' ≤ c ∧ c ≤ '9'

/-- The digit body of a Python integer literal: digits with single
underscores allowed between digits. -/
def digitsBody : List Char → Option Nat
  | [] => none
  | cs => go cs 0 true
where
  go : List Char → Nat → Bool → Option Nat
  | [], acc, lastWasDigit => if lastWasDigit then some acc else none
  | c :: rest, acc, lastWasDigit =>
      if isDigitChar c then go rest (acc * 10 + digitVal c) true
      else if c = '_' ∧ lastWasDigit then go rest acc false
      else none

/-- Python `int(s)` for a string argument: optional surrounding whitespace,
optional sign, then a nonempty digit string (underscores permitted between
digits).  `none` models the `ValueError` raised on anything else. -/
def pyInt (s : String) : Option Int :=
  match (pyStrip s).data with
  | '+' :: rest => (digitsBody rest).map (fun n => (n : Int))
  | '-' :: rest => (digitsBody rest).map (fun n => -(n : Int))
  | rest => (digitsBody rest).map (fun n => (n : Int))

/-! ### Dates and times (Python `datetime`, minute precision) -/

/-- A Python `datetime` at the precision the converter uses (the program
never reads seconds or microseconds). -/
structure PyDateTime where
  year : Nat
  month : Nat
  day : Nat
  hour : Nat
  minute : Nat
deriving DecidableEq, Repr

instance : Inhabited PyDateTime := ⟨⟨1900, 1, 1, 0, 0⟩⟩

def isLeapYear (y : Nat) : Bool :=
  y % 4 = 0 ∧ (y % 100 ≠ 0 ∨ y % 400 = 0)

def daysInMonth (y m : Nat) : Nat :=
  if m = 2 then (if isLeapYear y then 29 else 28)
  else if m = 4 ∨ m = 6 ∨ m = 9 ∨ m = 11 then 30
  else 31

/-- Day of week, 0 = Sunday, by Sakamoto's congruence (valid for the
proleptic Gregorian calendar Python's `datetime` uses). -/
def dayOfWeekSun0 (y m d : Nat) : Nat :=
  let t : List Nat := [0, 3, 2, 5, 0, 3, 5, 1, 4, 6, 2, 4]
  let y' := if m < 3 then y - 1 else y
  (y' + y' / 4 - y' / 100 + y' / 400 + t.getD (m - 1) 0 + d) % 7

/-- Python `dt.strftime('%u')`: ISO weekday, 1 = Monday .. 7 = Sunday. -/
def isoWeekday (dt : PyDateTime) : Nat :=
  let r := dayOfWeekSun0 dt.year dt.month dt.day
  if r = 0 then 7 else r

/-- `n` rendered with at least two digits, zero-padded (`%02d`). -/
def fmt02 (n : Nat) : String := rjust (toString n) 2 '0'

def monthAbbr (m : Nat) : String :=
  (["Jan", "Feb", "Mar", "Apr", "May", "Jun", "Jul", "Aug", "Sep", "Oct",
    "Nov", "Dec"]).getD (m - 1) ""

/-- Python `dt.strftime('%d%b%y')`, e.g. `20Dec25`. -/
def strftimeDMY (dt : PyDateTime) : String :=
  fmt02 dt.day ++ monthAbbr dt.month ++ fmt02 (dt.year % 100)

/-- `format_ssim_date` from main_v1.py:
`dt.strftime('%d%b%y').upper() if dt else ''.ljust(7)`. -/
def format_ssim_date (dt : Option PyDateTime) : String :=
  match dt with
  | some d => pyUpper (strftimeDMY d)
  | none => ljust "" 7 ' '

/-- Lexicographic comparison, matching Python `datetime` ordering at the
precision modelled. -/
def dtLt (a b : PyDateTime) : Bool :=
  if a.year ≠ b.year then a.year < b.year
  else if a.month ≠ b.month then a.month < b.month
  else if a.day ≠ b.day then a.day < b.day
  else if a.hour ≠ b.hour then a.hour < b.hour
  else a.minute < b.minute

/-- Python `min` over a nonempty list (keeps the first of equals). -/
def pyMin (x : PyDateTime) (xs : List PyDateTime) : PyDateTime :=
  xs.foldl (fun a b => if dtLt b a then b else a) x

/-- Python `max` over a nonempty list (keeps the first of equals). -/
def pyMax (x : PyDateTime) (xs : List PyDateTime) : PyDateTime :=
  xs.foldl (fun a b => if dtLt a b then b else a) x

/-- `dt + timedelta(days=1)`. -/
def addOneDay (dt : PyDateTime) : PyDateTime :=
  if dt.day + 1 ≤ daysInMonth dt.year dt.month then
    { dt with day := dt.day + 1 }
  else if dt.month + 1 ≤ 12 then
    { dt with month := dt.month + 1, day := 1 }
  else
    { dt with year := dt.year + 1, month := 1, day := 1 }

/-! ### `parse_flexible_date` and its `datetime.strptime` backend -/

/-- The fields a strptime run accumulates, with CPython's defaults
(year 1900, month 1, day 1). -/
structure StrpAcc where
  year : Nat := 1900
  month : Nat := 1
  day : Nat := 1
deriving Repr, DecidableEq

/-- `%d` as CPython's regex `3[01]|[12]\d|0[1-9]|[1-9]`: the two-digit
alternatives come first, then the bare `1`-`9`, giving the backtracking
candidate order. -/
def pDay (cs : List Char) : List (Nat × List Char) :=
  let twoDigit : List (Nat × List Char) :=
    match cs with
    | a :: b :: rest =>
        if isDigitChar a ∧ isDigitChar b then
          let v := 10 * digitVal a + digitVal b
          if 1 ≤ v ∧ v ≤ 31 then [(v, rest)] else []
        else []
    | _ => []
  let oneDigit : List (Nat × List Char) :=
    match cs with
    | a :: rest => if isDigitChar a ∧ a ≠ '0' then [(digitVal a, rest)] else []
    | _ => []
  twoDigit ++ oneDigit

/-- `%m` as CPython's regex `1[0-2]|0[1-9]|[1-9]`. -/
def pMonth (cs : List Char) : List (Nat × List Char) :=
  let twoDigit : List (Nat × List Char) :=
    match cs with
    | a :: b :: rest =>
        if isDigitChar a ∧ isDigitChar b then
          let v := 10 * digitVal a + digitVal b
          if 1 ≤ v ∧ v ≤ 12 then [(v, rest)] else []
        else []
    | _ => []
  let oneDigit : List (Nat × List Char) :=
    match cs with
    | a :: rest => if isDigitChar a ∧ a ≠ '0' then [(digitVal a, rest)] else []
    | _ => []
  twoDigit ++ oneDigit

/-- `%Y`: exactly four digits. -/
def pYear4 (cs : List Char) : List (Nat × List Char) :=
  match cs with
  | a :: b :: c :: d :: rest =>
      if isDigitChar a ∧ isDigitChar b ∧ isDigitChar c ∧ isDigitChar d then
        [(1000 * digitVal a + 100 * digitVal b + 10 * digitVal c + digitVal d, rest)]
      else []
  | _ => []

/-- `%y`: exactly two digits, mapped by CPython's pivot
(`00`-`68` → 2000s, `69`-`99` → 1900s). -/
def pYear2 (cs : List Char) : List (Nat × List Char) :=
  match cs with
  | a :: b :: rest =>
      if isDigitChar a ∧ isDigitChar b then
        let v := 10 * digitVal a + digitVal b
        [(if v ≤ 68 then v + 2000 else v + 1900, rest)]
      else []
  | _ => []

def lowerChar (c : Char) : Char := c.toLower

/-- `%b`: a three-letter English month abbreviation, case-insensitively. -/
def pMonthName (cs : List Char) : List (Nat × List Char) :=
  match cs with
  | a :: b :: c :: rest =>
      let w := String.mk [lowerChar a, lowerChar b, lowerChar c]
      let names := ["jan", "feb", "mar", "apr", "may", "jun", "jul", "aug",
        "sep", "oct", "nov", "dec"]
      match names.indexOf? w with
      | some i => [(i + 1, rest)]
      | none => []
  | _ => []

/-- Run a strptime format over the input, producing every complete match of
the whole directive sequence in regex-backtracking order, each with its
unconsumed remainder.  Directives are interpreted as CPython compiles them;
any other character must match literally. -/
def runFmt : List Char → List Char → StrpAcc → List (StrpAcc × List Char)
  | [], input, acc => [(acc, input)]
  | '%' :: 'd' :: restF, input, acc =>
      (pDay input).flatMap (fun p => runFmt restF p.2 { acc with day := p.1 })
  | '%' :: 'm' :: restF, input, acc =>
      (pMonth input).flatMap (fun p => runFmt restF p.2 { acc with month := p.1 })
  | '%' :: 'b' :: restF, input, acc =>
      (pMonthName input).flatMap (fun p => runFmt restF p.2 { acc with month := p.1 })
  | '%' :: 'y' :: restF, input, acc =>
      (pYear2 input).flatMap (fun p => runFmt restF p.2 { acc with year := p.1 })
  | '%' :: 'Y' :: restF, input, acc =>
      (pYear4 input).flatMap (fun p => runFmt restF p.2 { acc with year := p.1 })
  | c :: restF, input, acc =>
      match input with
      | i :: restI => if i = c then runFmt restF restI acc else []
      | [] => []

/-- `datetime.strptime(s, fmt)` for the formats the converter uses: the
regex engine returns the first complete pattern match; the parse then fails
if input remains, and `datetime`'s constructor validates the calendar date
(`MINYEAR = 1`, day within the month).  `none` models `ValueError`. -/
def pyStrptime (fmt s : String) : Option PyDateTime :=
  match runFmt fmt.data s.data {} with
  | [] => none
  | (acc, rest) :: _ =>
      if rest = [] ∧ 1 ≤ acc.year ∧ acc.year ≤ 9999 ∧
          1 ≤ acc.day ∧ acc.day ≤ daysInMonth acc.year acc.month then
        some ⟨acc.year, acc.month, acc.day, 0, 0⟩
      else none

/-- The format list of `parse_flexible_date`, in source order. -/
def date_formats : List String :=
  ["%d%b%y", "%m/%d/%Y", "%m/%d/%y", "%d-%b-%y", "%d/%m/%Y", "%Y-%m-%d",
   "%d%b%Y", "%m-%d-%Y"]

def tryFormats (fmts : List String) (s : String) : Option PyDateTime :=
  match fmts with
  | [] => none
  | f :: rest =>
      match pyStrptime f s with
      | some d => some d
      | none => tryFormats rest s

/-- `parse_flexible_date` from main_v1.py: empty or all-whitespace input is
`None`; otherwise the stripped string is tried against `date_formats` in
order and the first success is returned, `None` when every format fails. -/
def parse_flexible_date (date_string : String) : Option PyDateTime :=
  if date_string.data = [] ∨ (pyStrip date_string).data = [] then none
  else tryFormats date_formats (pyStrip date_string)

/-! ### The static timezone estimator -/

def eastern_airports : List String :=
  ["ATL", "DTW", "CHA", "CLE", "CVG", "PIT", "RIC", "ORF", "BWI",
   "BDL", "PHL", "BUF", "JFK", "LGA", "EWR", "BOS", "MIA", "FLL",
   "TPA", "MCO", "TLH", "CHS", "GRR", "RSW", "SRQ"]

def central_airports : List String :=
  ["MEM", "MSP", "ORD", "DFW", "MCI", "STL", "MSY", "IAH", "HOU",
   "SAT", "AUS", "OKC", "TUL", "LIT", "BHM", "MOB", "HSV"]

def mountain_airports : List String :=
  ["DEN", "PHX", "SLC", "ABQ", "BOI", "BIL", "GJT", "COS"]

def pacific_airports : List String :=
  ["LAX", "SFO", "SEA", "LAS", "SAN", "PDX", "SMF", "OAK", "SJC"]

/-- `estimate_us_timezone_offset` from main_v1.py, offsets in hours. -/
def estimate_us_timezone_offset (airport_code : String)
    (reference_date : PyDateTime) : ℚ :=
  let month := reference_date.month
  let is_dst : Bool := 3 ≤ month ∧ month ≤ 10
  if airport_code ∈ eastern_airports then
    if is_dst then -4 else -5
  else if airport_code ∈ central_airports then
    if is_dst then -5 else -6
  else if airport_code ∈ mountain_airports then
    if airport_code = "PHX" then -7
    else if is_dst then -6 else -7
  else if airport_code ∈ pacific_airports then
    if is_dst then -7 else -8
  else
    if is_dst then -4 else -5

/-! ### Legs, rows, and the reader -/

/-- A flight leg as the writer sees it: the original row's named columns
(`none` models a column absent from the CSV header) plus the computed
fields `read_low_csv` attaches. -/
structure Leg where
  aln : Option String := none
  fltNum : Option String := none
  lineNum : Option String := none
  legSeqNum : Option String := none
  serviceType : Option String := none
  deptSta : Option String := none
  arvlSta : Option String := none
  equip : Option String := none
  acConfig : Option String := none
  reasonCode : Option String := none
  deptTime : String := ""
  arvlTime : String := ""
  deptDateTime : Option PyDateTime := none
  arvlDateTime : Option PyDateTime := none
  deptUTCOffset : Option ℚ := none
  arvlUTCOffset : Option ℚ := none
deriving DecidableEq, Repr

instance : Inhabited Leg := ⟨{}⟩

/-- One CSV row of the LoW file.  The columns `read_low_csv` indexes
directly (`row[...]`) are plain strings; those it reads with `row.get`
are optional so a missing column can be modelled. -/
structure Row where
  deptSta : String
  arvlSta : String
  deptTime : String
  arvlTime : String
  lineNum : String
  deptDate : Option String := none
  arvlDate : Option String := none
  legSeqNum : Option String := none
  aln : Option String := none
  fltNum : Option String := none
  serviceType : Option String := none
  equip : Option String := none
  acConfig : Option String := none
  reasonCode : Option String := none
deriving DecidableEq, Repr

/-- Python `dict.get` over an association list (an insertion-ordered map). -/
def lookupQ (m : List (String × ℚ)) (k : String) : Option ℚ :=
  (m.find? (fun p => p.1 = k)).map (·.2)

/-- `date_obj.replace(hour=int(t[:2]), minute=int(t[2:]))`: either `int`
call or an out-of-range hour/minute raises `ValueError`, caught by the
reader, which leaves that side's datetime `None`. -/
def combineDT (d : PyDateTime) (time4 : String) : Option PyDateTime :=
  match pyInt (sliceTo time4 2), pyInt (String.mk (time4.data.drop 2)) with
  | some h, some m =>
      if 0 ≤ h ∧ h ≤ 23 ∧ 0 ≤ m ∧ m ≤ 59 then
        some { d with hour := h.toNat, minute := m.toNat }
      else none
  | _, _ => none

/-- One row of `read_low_csv`'s loop body: zero-fill the times, parse the
two dates, combine each with its time, attach offsets by uppercased
airport code, and keep all original columns. -/
def mkLeg (airport_offsets : List (String × ℚ)) (row : Row) : Leg :=
  let dept_time := zfill row.deptTime 4
  let arvl_time := zfill row.arvlTime 4
  let dept_dt := (parse_flexible_date (row.deptDate.getD "")).bind
    (fun d => combineDT d dept_time)
  let arvl_dt := (parse_flexible_date (row.arvlDate.getD "")).bind
    (fun d => combineDT d arvl_time)
  { aln := row.aln, fltNum := row.fltNum, lineNum := some row.lineNum,
    legSeqNum := row.legSeqNum, serviceType := row.serviceType,
    deptSta := some row.deptSta, arvlSta := some row.arvlSta,
    equip := row.equip, acConfig := row.acConfig,
    reasonCode := row.reasonCode,
    deptTime := dept_time, arvlTime := arvl_time,
    deptDateTime := dept_dt, arvlDateTime := arvl_dt,
    deptUTCOffset := lookupQ airport_offsets (pyUpper row.deptSta),
    arvlUTCOffset := lookupQ airport_offsets (pyUpper row.arvlSta) }

/-- Append a leg to its shell, creating the shell at the end on first
occurrence (Python dicts preserve insertion order). -/
def addToShells (shells : List (String × List Leg)) (sid : String)
    (leg : Leg) : List (String × List Leg) :=
  if shells.any (fun p => p.1 = sid) then
    shells.map (fun p => if p.1 = sid then (p.1, p.2 ++ [leg]) else p)
  else shells ++ [(sid, [leg])]

/-- The sort key `int(x.get("Leg Seq num", "1"))`; `none` models the
uncaught `ValueError`/`TypeError` from `int` on a present but non-numeric
value. -/
def legSortKey (x : Leg) : Option Int :=
  pyInt (x.legSeqNum.getD "1")

/-- `shell.sort(key=lambda x: int(x.get("Leg Seq num", "1")))`: Python's
sort is stable and ascending on the computed keys; a stable ascending sort
is unique, so the structurally recursive stable `insertionSort` computes
the same list Python's sort does.  Python computes every key first, so a
single bad key aborts the run (`none`). -/
def sortShell (legs : List Leg) : Option (List Leg) :=
  (legs.mapM (fun l => (legSortKey l).map (fun k => (k, l)))).map
    (fun ks =>
      (ks.insertionSort (fun a b => a.1 ≤ b.1)).map (·.2))

/-- `read_low_csv`: build all legs in row order, group them into shells by
`Line Num` in first-seen order, then sort each shell by leg-sequence
number.  `none` models the run aborting on a malformed sequence number. -/
def read_low_csv (rows : List Row) (airport_offsets : List (String × ℚ)) :
    Option (List Leg × List (String × List Leg)) :=
  let all_legs := rows.map (mkLeg airport_offsets)
  let shells := all_legs.foldl
    (fun sh leg => addToShells sh (leg.lineNum.getD "") leg) []
  (shells.mapM (fun p => (sortShell p.2).map (fun l => (p.1, l)))).map
    (fun sorted => (all_legs, sorted))

/-! ### Field formatting for records -/

/-- Python `round`: nearest integer, ties to even. -/
def pyRound (q : ℚ) : ℤ :=
  let f := ⌊q⌋
  let r := q - f
  if r < 1 / 2 then f
  else if 1 / 2 < r then f + 1
  else if f % 2 = 0 then f else f + 1

/-- `format_utc_offset` from main_v1.py. -/
def format_utc_offset (offset : Option ℚ) : String :=
  match offset with
  | none => "0000"
  | some q =>
      let sign := if q < 0 then "-" else "+"
      let a := |q|
      let hours : Nat := (⌊a⌋).toNat
      let mins : Nat := (pyRound ((a - (hours : ℚ)) * 60)).toNat
      sign ++ fmt02 hours ++ fmt02 mins

/-- `ssim_time_field` from main_v1.py: `str(t).zfill(4)`. -/
def ssim_time_field (t : String) : String := zfill t 4

/-! ### Record builders (write_ssim_with_segments) -/

/-- The Type-3 (flight) record's fields, in source order, before the final
pad to 200. -/
def mkType3fields (leg : Leg) (next_leg : Option Leg)
    (record_serial : Nat) : List String :=
  let raw_airline_code := leg.aln.getD "DL"
  let raw_flight_number := leg.fltNum.getD ""
  let raw_itinerary_var := leg.lineNum.getD "1"
  let raw_leg_seq_num := leg.legSeqNum.getD "1"
  let raw_service_type := leg.serviceType.getD "J"
  let raw_dep_date_str := format_ssim_date leg.deptDateTime
  let raw_day_of_week :=
    match leg.deptDateTime with
    | some dt => toString (isoWeekday dt)
    | none => "1"
  let raw_dep_airport := leg.deptSta.getD ""
  let raw_arr_airport := leg.arvlSta.getD ""
  let formatted_dep_time := ssim_time_field leg.deptTime
  let formatted_arr_time := ssim_time_field leg.arvlTime
  let formatted_dep_offset := format_utc_offset leg.deptUTCOffset
  let formatted_arr_offset := format_utc_offset leg.arvlUTCOffset
  let raw_ac_type := leg.equip.getD "73J"
  let raw_ac_config := leg.acConfig.getD ""
  let raw_ac_owner := ""
  let raw_onward_airline :=
    match next_leg with | some n => n.aln.getD "" | none => ""
  let raw_onward_fltno :=
    match next_leg with | some n => n.fltNum.getD "" | none => ""
  let formatted_period_of_op := raw_dep_date_str ++ raw_dep_date_str
  [pad_right "3" 1, pad_right "" 1, pad_right raw_airline_code 3,
   pad_left raw_flight_number 4 ' ', pad_left raw_itinerary_var 2 '0',
   pad_left raw_leg_seq_num 2 '0', pad_right raw_service_type 1,
   pad_right formatted_period_of_op 14, pad_left raw_day_of_week 7 ' ',
   pad_right "" 1, pad_right raw_dep_airport 3,
   pad_right formatted_dep_time 4, pad_right formatted_dep_time 4,
   pad_right formatted_dep_offset 5, pad_right "" 2,
   pad_right raw_arr_airport 3, pad_right formatted_arr_time 4,
   pad_right formatted_arr_time 4, pad_right formatted_arr_offset 5,
   pad_right "" 2, pad_right raw_ac_type 3, pad_right "" 23,
   pad_right raw_ac_owner 3, pad_right "" 36,
   pad_right raw_onward_airline 3, pad_left raw_onward_fltno 4 ' ',
   pad_left "" 1 ' ', pad_left "" 1 ' ', pad_right "" 26,
   pad_right (raw_ac_config ++ "VV10") 20, pad_right "" 2,
   pad_left (toString record_serial) 6 '0']

def mkType3 (leg : Leg) (next_leg : Option Leg) (record_serial : Nat) :
    String :=
  pad_right (cat (mkType3fields leg next_leg record_serial)) 200

/-- The Type-4 (segment) record's fields, in source order. -/
def mkType4fields (leg : Leg) (record_serial : Nat) : List String :=
  let raw_airline_code := leg.aln.getD "DL"
  let raw_flight_number := leg.fltNum.getD ""
  let raw_itinerary_var := leg.lineNum.getD "1"
  let raw_leg_seq_num := leg.legSeqNum.getD "1"
  let raw_service_type := leg.serviceType.getD "J"
  let raw_dep_airport := leg.deptSta.getD ""
  let raw_arr_airport := leg.arvlSta.getD ""
  let reason_code := leg.reasonCode.getD " "
  [pad_right "4" 1, pad_right "" 1, pad_right raw_airline_code 3,
   pad_left raw_flight_number 4 ' ', pad_left raw_itinerary_var 2 '0',
   pad_left raw_leg_seq_num 2 '0', pad_right raw_service_type 1,
   pad_right "" 13, pad_right "" 1, pad_right "A" 1, pad_right "B" 1,
   pad_left "997" 3 '0', pad_right raw_dep_airport 3,
   pad_right raw_arr_airport 3, pad_right reason_code 155,
   pad_left (toString record_serial) 6 '0']

def mkType4 (leg : Leg) (record_serial : Nat) : String :=
  pad_right (cat (mkType4fields leg record_serial)) 200

/-- The Type-5 trailer's fields, in source order. -/
def mkType5fields (today : PyDateTime) (record_serial : Nat) : List String :=
  [pad_right "5" 1, pad_right "" 1, pad_right "DL" 3,
   pad_left (pyUpper (strftimeDMY today)) 7 ' ', pad_left "" 175 ' ',
   pad_left "000999" 6 ' ', pad_left "E" 1 ' ',
   pad_left (toString record_serial) 6 '0']

def mkType5 (today : PyDateTime) (record_serial : Nat) : String :=
  pad_right (cat (mkType5fields today record_serial)) 200

/-! ### The chained writer -/

def zeroLine : String := String.mk (List.replicate 200 '0')

/-- The literal Type-1 banner written by `write_ssim_with_segments`. -/
def bannerLine : String :=
  "1AIRLINE STANDARD SCHEDULE DATA SET" ++ String.mk (List.replicate 156 ' ')
    ++ "001000001"

/-- The Type-2 header: the f-string of the source (with its hard-coded
time-zone mode `L` and airline `DL`), right-padded to 188 and closed by
the literal 12-character suffix. -/
def header2 (first_op last_op today : PyDateTime) : String :=
  pad_right (cat ["2L", "DL  0008    ", pyUpper (strftimeDMY first_op),
    pyUpper (strftimeDMY last_op), pyUpper (strftimeDMY today),
    String.mk (List.replicate 36 ' '),
    "PCreated by Python LoW-to-SSIM Converter"]) 188 ++ "EN1140000002"

/-- `find_operation_date_range` with the writer's hard-coded mode `'L'`,
under which `convert_date_to_utc_if_needed` returns its input unchanged;
the fallback when no leg has any datetime is `(now, now + 1 day)`. -/
def find_operation_date_range (all_legs : List Leg) (now : PyDateTime) :
    PyDateTime × PyDateTime :=
  let dates := all_legs.flatMap
    (fun leg => leg.deptDateTime.toList ++ leg.arvlDateTime.toList)
  match dates with
  | [] => (now, addOneDay now)
  | d :: rest => (pyMin d rest, pyMax d rest)

def shellKeys (shells : List (String × List Leg)) : List String :=
  shells.map Prod.fst

/-- Python `shells[sid]` (keys are unique in a dict, so `find?` is the
lookup; the default is irrelevant where the key exists). -/
def lookupShell (shells : List (String × List Leg)) (sid : String) :
    List Leg :=
  ((shells.find? (fun p => p.1 = sid)).map (·.2)).getD []

/-- `find_connecting_shell` from main_v1.py: the first shell in insertion
order that is unvisited, nonempty, and whose first flight departs
(case-insensitively) from `arrival_airport`. -/
def find_connecting_shell (shells : List (String × List Leg))
    (processed_shells : List String) (arrival_airport : String) :
    Option String :=
  shells.findSome? (fun p =>
    if p.1 ∈ processed_shells then none
    else
      match p.2 with
      | [] => none
      | first_flight :: _ =>
          if pyUpper (first_flight.deptSta.getD "") = pyUpper arrival_airport
          then some p.1 else none)

/-- The per-shell emission loop (`for idx, leg in enumerate(...)`): every
leg but the last is paired with the next leg of the shell; the last leg's
onward is the first flight of the connecting unvisited shell, if any.
Returns the emitted lines and the advanced record serial. -/
def emitLegs (shells : List (String × List Leg)) (processed : List String) :
    List Leg → Nat → List String × Nat
  | [], serial => ([], serial)
  | [leg], serial =>
      let next_leg :=
        match find_connecting_shell shells processed (leg.arvlSta.getD "") with
        | some cid => (lookupShell shells cid).head?
        | none => none
      ([mkType3 leg next_leg serial, mkType4 leg (serial + 1)], serial + 2)
  | leg :: nxt :: rest, serial =>
      let (ls, serial') := emitLegs shells processed (nxt :: rest) (serial + 2)
      (mkType3 leg (some nxt) serial :: mkType4 leg (serial + 1) :: ls, serial')

/-- The `while len(processed_shells) < len(shells)` loop.  `fuel` bounds
the number of iterations; exhausting it (`none`) models nontermination,
and the `getLast?` failure models the `IndexError` Python would raise on
an empty shell.  Returns the emitted lines, the final serial, and the
visit order. -/
def chainLoop (shells : List (String × List Leg)) :
    Nat → List String → String → Nat →
    Option (List String × Nat × List String)
  | 0, _, _, _ => none
  | fuel + 1, processed, current, serial =>
    if processed.length < shells.length then
      let legs := lookupShell shells current
      let processed' :=
        if current ∈ processed then processed else processed ++ [current]
      let (ls, serial') := emitLegs shells processed' legs serial
      if processed'.length < shells.length then
        match legs.getLast? with
        | none => none
        | some last_leg =>
            let arr := last_leg.arvlSta.getD ""
            let next :=
              match find_connecting_shell shells processed' arr with
              | some nid => some nid
              | none =>
                  ((shellKeys shells).filter (fun s => s ∉ processed')).head?
            match next with
            | some nid =>
                (chainLoop shells fuel processed' nid serial').map
                  (fun r => (ls ++ r.1, r.2.1, current :: r.2.2))
            | none =>
                (chainLoop shells fuel processed' current serial').map
                  (fun r => (ls ++ r.1, r.2.1, current :: r.2.2))
      else some (ls, serial', [current])
    else some ([], serial, [])

/-- The ten lines `write_ssim_with_segments` writes before any data
record: the Type-1 banner, four zero-fill lines, the Type-2 header for the
operation date range, and four more zero-fill lines. -/
def headLines (all_legs : List Leg) (now : PyDateTime) : List String :=
  bannerLine :: List.replicate 4 zeroLine
    ++ [header2 (find_operation_date_range all_legs now).1
        (find_operation_date_range all_legs now).2 now]
    ++ List.replicate 4 zeroLine

/-- `write_ssim_with_segments` from main_v1.py, as the list of emitted
lines (each line's trailing newline elided).  `now` is the value of
`datetime.now()` during the run.  An empty shells map makes the function
return after the headers (the file keeps what was already written). -/
def write_ssim_with_segments (all_legs : List Leg)
    (shells : List (String × List Leg)) (now : PyDateTime) :
    Option (List String) :=
  match shellKeys shells with
  | [] => some (headLines all_legs now)
  | k0 :: _ =>
      (chainLoop shells shells.length [] k0 3).map (fun r =>
        headLines all_legs now ++ r.1 ++ List.replicate 4 zeroLine
          ++ [mkType5 now r.2.1] ++ List.replicate 14 zeroLine)

/-! ### Specification-side reference definitions

These restate, in the structure the specification uses, what the claims
say the code computes; the claim theorems compare them with the
definitions taken from the source. -/

/-- The estimator as the specification describes it: DST exactly when the
month is in 3..10; Phoenix pinned to −7 for every reference date; the four
sets with their DST/standard pairs; anything unknown follows the Eastern
rule. -/
def estimateOffsetSpec (code : String) (d : PyDateTime) : ℚ :=
  let dst : Bool := 3 ≤ d.month ∧ d.month ≤ 10
  if code = "PHX" then -7
  else if code ∈ eastern_airports then (if dst then -4 else -5)
  else if code ∈ central_airports then (if dst then -5 else -6)
  else if code ∈ mountain_airports then (if dst then -6 else -7)
  else if code ∈ pacific_airports then (if dst then -7 else -8)
  else (if dst then -4 else -5)

/-- The date formats the specification enumerates, in its trial order:
ddMONyy, mm/dd/yyyy, mm/dd/yy, dd-MON-yy, dd/mm/yyyy, yyyy-mm-dd,
ddMONyyyy, mm-dd-yyyy. -/
def claimFormats : List String :=
  ["%d%b%y", "%m/%d/%Y", "%m/%d/%y", "%d-%b-%y", "%d/%m/%Y", "%Y-%m-%d",
   "%d%b%Y", "%m-%d-%Y"]

/-- The onward leg the specification assigns to position `i` of a shell:
the next leg of the same shell when one exists, else the first leg of the
first unvisited shell whose first leg departs from the current leg's
arrival airport. -/
def specOnward (shells : List (String × List Leg)) (processed : List String)
    (legs : List Leg) (i : Nat) : Option Leg :=
  match legs[i + 1]? with
  | some nxt => some nxt
  | none =>
      legs[i]?.bind (fun leg =>
        (find_connecting_shell shells processed (leg.arvlSta.getD "")).bind
          (fun cid => (lookupShell shells cid).head?))

/-- One emitted Type-3/Type-4 pair per leg of the shell, in sequence
order, with the record serial advancing by one per record. -/
def specEmitShell (shells : List (String × List Leg))
    (processed : List String) (legs : List Leg) (serial : Nat) :
    List String :=
  (List.range legs.length).flatMap (fun i =>
    [mkType3 (legs.getD i default) (specOnward shells processed legs i)
       (serial + 2 * i),
     mkType4 (legs.getD i default) (serial + 2 * i + 1)])

/-- The data section the chain traversal produces for a given visit
order: each visited shell's pairs in turn, the visited set growing and the
serial advancing by two per leg. -/
def chainChunks (shells : List (String × List Leg)) :
    List String → List String → Nat → List String
  | [], _, _ => []
  | sid :: rest, processed, serial =>
      let legs := lookupShell shells sid
      specEmitShell shells (processed ++ [sid]) legs serial
        ++ chainChunks shells rest (processed ++ [sid])
            (serial + 2 * legs.length)


/-- Total number of legs across all shells. -/
def legsTotal (shells : List (String × List Leg)) : Nat :=
  ((shells.map Prod.snd).map List.length).sum

/-! ### Concrete instances used to exercise the theorems -/

/-- Rotation 1's only leg: JFK → ATL, flight DL 101. -/
def legJA : Leg :=
  { aln := some "DL", fltNum := some "101", lineNum := some "1"
    legSeqNum := some "1", deptSta := some "JFK", arvlSta := some "ATL"
    deptTime := "0800", arvlTime := "1100" }

/-- Rotation 2's only leg: ATL → JFK, flight DL 202. -/
def legAJ : Leg :=
  { aln := some "DL", fltNum := some "202", lineNum := some "2"
    legSeqNum := some "1", deptSta := some "ATL", arvlSta := some "JFK"
    deptTime := "1200", arvlTime := "1500" }

/-- The two-rotation shells map of the connection scenario. -/
def shellsC : List (String × List Leg) := [("1", [legJA]), ("2", [legAJ])]

def allLegsC : List Leg := [legJA, legAJ]

def nowC : PyDateTime := ⟨2025, 10, 12, 9, 30⟩

def nowC2 : PyDateTime := ⟨2025, 10, 13, 9, 30⟩

/-- A row whose `Leg Seq num` column holds a non-numeric value. -/
def rowBadSeq : Row :=
  { deptSta := "JFK", arvlSta := "ATL", deptTime := "0800"
    arvlTime := "1100", lineNum := "1", legSeqNum := some "abc" }

/-- A leg whose `Leg Seq num` value is non-numeric. -/
def legBadSeq : Leg := { legSeqNum := some "abc" }

/-- A well-formed row whose departure date is unparsable. -/
def rowOK : Row :=
  { deptSta := "JFK", arvlSta := "ATL", deptTime := "800"
    arvlTime := "1100", lineNum := "1", legSeqNum := some "1"
    deptDate := some "not-a-date" }

/-- A leg with no departure date-time and no `Leg Seq num` column. -/
def legNoDate : Leg :=
  { aln := some "DL", fltNum := some "44", lineNum := some "9"
    deptSta := some "JFK", arvlSta := some "BOS"
    deptTime := "0700", arvlTime := "0900" }

/-! ## Helper lemmas: string primitives and field extraction -/

theorem data_mk (l : List Char) : (String.mk l).data = l := rfl

theorem ljust_data (s : String) (w : Nat) (c : Char) :
    (ljust s w c).data = s.data ++ List.replicate (w - s.data.length) c := rfl

theorem pad_right_length (s : String) (n : Nat) :
    (pad_right s n).data.length = n := by
  simp only [pad_right, ljust, sliceTo, data_mk, List.length_append,
    List.length_replicate, List.length_take]
  omega

theorem pad_left_length (s : String) (n : Nat) (c : Char) (h : n ≠ 0) :
    (pad_left s n c).data.length = n := by
  simp only [pad_left, rjust, sliceLast, if_neg h, data_mk, List.length_append,
    List.length_replicate, List.length_drop]
  omega

theorem pad_right_of_length (s : String) (n : Nat) (h : s.data.length = n) :
    pad_right s n = s := by
  simp only [pad_right, ljust, sliceTo, data_mk, ← h, List.take_length,
    Nat.sub_self, List.replicate_zero, List.append_nil]

/-- `pad_right` keeps the first `n` characters of an over-long string. -/
theorem pad_right_of_le (s : String) (n : Nat) (h : n ≤ s.data.length) :
    pad_right s n = sliceTo s n := by
  simp only [pad_right, ljust, sliceTo, data_mk, List.length_take]
  rw [show min n s.data.length = n by omega]
  simp

/-- `pad_left` keeps the last `n` characters of an over-long string. -/
theorem pad_left_of_le (s : String) (n : Nat) (c : Char) (h : n ≤ s.data.length)
    (hn : n ≠ 0) :
    pad_left s n c = sliceLast s n := by
  simp only [pad_left, rjust, sliceLast, if_neg hn, data_mk, List.length_drop]
  rw [show s.data.length - (s.data.length - n) = n by omega]
  simp

theorem fieldsData_nil : fieldsData [] = [] := rfl

theorem fieldsData_cons (s : String) (ls : List String) :
    fieldsData (s :: ls) = s.data ++ fieldsData ls := by
  simp [fieldsData]

theorem drop_app (a b : List Char) (n : Nat) (h : a.length ≤ n) :
    (a ++ b).drop n = b.drop (n - a.length) := by
  induction a generalizing n with
  | nil => simp
  | cons x xs ih =>
    cases n with
    | zero => simp at h
    | succ m =>
      simp only [List.cons_append, List.drop_succ_cons, List.length_cons]
      rw [ih m (by simpa using h)]
      congr 1
      omega

theorem take_app (a b : List Char) (n : Nat) (h : n ≤ a.length) :
    (a ++ b).take n = a.take n := by
  induction a generalizing n with
  | nil =>
    simp only [List.length_nil, Nat.le_zero] at h
    subst h
    simp
  | cons x xs ih =>
    cases n with
    | zero => simp
    | succ m =>
      simp only [List.cons_append, List.take_succ_cons, List.length_cons]
      rw [ih m (by simpa using h)]

/-- Extracting a field out of a concatenation of fixed-width fields: dropping
the combined width of the fields before it and taking its own width yields
exactly that field. -/
theorem fields_extract (pre : List String) (mid : String) (post : List String) :
    ((fieldsData (pre ++ mid :: post)).drop (fieldsData pre).length).take
      mid.data.length = mid.data := by
  induction pre with
  | nil =>
    simp only [List.nil_append, fieldsData_cons, fieldsData_nil,
      List.length_nil, List.drop_zero]
    rw [take_app _ _ _ (le_refl _), List.take_length]
  | cons x xs ih =>
    simp only [List.cons_append, fieldsData_cons, List.length_append]
    rw [drop_app _ _ _ (by omega)]
    rw [show x.data.length + (fieldsData xs).length - x.data.length
        = (fieldsData xs).length by omega]
    exact ih

/-- Slice form of `fields_extract`. -/
theorem sliceStr_cat (pre : List String) (mid : String) (post : List String)
    (a w : Nat) (ha : (fieldsData pre).length = a) (hw : mid.data.length = w) :
    sliceStr (cat (pre ++ mid :: post)) a w = mid := by
  subst ha hw
  show String.mk _ = mid
  rw [show (cat (pre ++ mid :: post)).data = fieldsData (pre ++ mid :: post) from rfl]
  rw [fields_extract]

theorem fieldsData_length (ls : List String) :
    (fieldsData ls).length = (ls.map (fun s => s.data.length)).sum := by
  induction ls with
  | nil => rfl
  | cons x xs ih => simp [fieldsData_cons, ih]

theorem str_append_data (s t : String) : (s ++ t).data = s.data ++ t.data := rfl

theorem pad_left_len1 (s : String) (c : Char) : (pad_left s 1 c).data.length = 1 :=
  pad_left_length s 1 c (by omega)

theorem pad_left_len2 (s : String) (c : Char) : (pad_left s 2 c).data.length = 2 :=
  pad_left_length s 2 c (by omega)

theorem pad_left_len3 (s : String) (c : Char) : (pad_left s 3 c).data.length = 3 :=
  pad_left_length s 3 c (by omega)

theorem pad_left_len4 (s : String) (c : Char) : (pad_left s 4 c).data.length = 4 :=
  pad_left_length s 4 c (by omega)

theorem pad_left_len6 (s : String) (c : Char) : (pad_left s 6 c).data.length = 6 :=
  pad_left_length s 6 c (by omega)

theorem pad_left_len7 (s : String) (c : Char) : (pad_left s 7 c).data.length = 7 :=
  pad_left_length s 7 c (by omega)

theorem pad_left_len175 (s : String) (c : Char) :
    (pad_left s 175 c).data.length = 175 :=
  pad_left_length s 175 c (by omega)

/-- Extract the `i`-th field of a fixed-width concatenation from the byte
offset equal to the combined width of the fields before it. -/
theorem cat_extract (ls : List String) (i a w : Nat) (hi : i < ls.length)
    (ha : (fieldsData (ls.take i)).length = a)
    (hw : (ls.getD i default).data.length = w) :
    sliceStr (cat ls) a w = ls.getD i default := by
  have hdecomp : ls = ls.take i ++ ls.getD i default :: ls.drop (i + 1) := by
    conv_lhs => rw [← List.take_append_drop i ls]
    congr 1
    rw [List.getD_eq_getElem?_getD, List.getElem?_eq_getElem hi]
    exact (List.getElem_cons_drop ls i hi).symm
  conv_lhs => rw [hdecomp]
  exact sliceStr_cat _ _ _ a w ha hw

theorem pad_right_slen (s : String) (n : Nat) : (pad_right s n).length = n :=
  pad_right_length s n

theorem pad_left_slen1 (s : String) (c : Char) : (pad_left s 1 c).length = 1 :=
  pad_left_len1 s c

theorem pad_left_slen2 (s : String) (c : Char) : (pad_left s 2 c).length = 2 :=
  pad_left_len2 s c

theorem pad_left_slen3 (s : String) (c : Char) : (pad_left s 3 c).length = 3 :=
  pad_left_len3 s c

theorem pad_left_slen4 (s : String) (c : Char) : (pad_left s 4 c).length = 4 :=
  pad_left_len4 s c

theorem pad_left_slen6 (s : String) (c : Char) : (pad_left s 6 c).length = 6 :=
  pad_left_len6 s c

theorem pad_left_slen7 (s : String) (c : Char) : (pad_left s 7 c).length = 7 :=
  pad_left_len7 s c

theorem pad_left_slen175 (s : String) (c : Char) :
    (pad_left s 175 c).length = 175 :=
  pad_left_len175 s c

/-! ## Record shape lemmas -/

theorem type3fields_length (leg : Leg) (next_leg : Option Leg) (serial : Nat) :
    (fieldsData (mkType3fields leg next_leg serial)).length = 200 := by
  simp [mkType3fields, fieldsData_length, pad_right_slen, pad_left_slen1,
    pad_left_slen2, pad_left_slen4, pad_left_slen6, pad_left_slen7]

theorem type4fields_length (leg : Leg) (serial : Nat) :
    (fieldsData (mkType4fields leg serial)).length = 200 := by
  simp [mkType4fields, fieldsData_length, pad_right_slen, pad_left_slen2,
    pad_left_slen3, pad_left_slen4, pad_left_slen6]

theorem type5fields_length (today : PyDateTime) (serial : Nat) :
    (fieldsData (mkType5fields today serial)).length = 200 := by
  simp [mkType5fields, fieldsData_length, pad_right_slen, pad_left_slen1,
    pad_left_slen6, pad_left_slen7, pad_left_slen175]

theorem mkType3_data (leg : Leg) (next_leg : Option Leg) (serial : Nat) :
    mkType3 leg next_leg serial = cat (mkType3fields leg next_leg serial) := by
  rw [mkType3, pad_right_of_length]
  exact type3fields_length leg next_leg serial

theorem mkType4_data (leg : Leg) (serial : Nat) :
    mkType4 leg serial = cat (mkType4fields leg serial) := by
  rw [mkType4, pad_right_of_length]
  exact type4fields_length leg serial

theorem mkType5_data (today : PyDateTime) (serial : Nat) :
    mkType5 today serial = cat (mkType5fields today serial) := by
  rw [mkType5, pad_right_of_length]
  exact type5fields_length today serial

theorem mkType3_length (leg : Leg) (next_leg : Option Leg) (serial : Nat) :
    (mkType3 leg next_leg serial).data.length = 200 :=
  pad_right_length _ _

theorem mkType4_length (leg : Leg) (serial : Nat) :
    (mkType4 leg serial).data.length = 200 :=
  pad_right_length _ _

theorem mkType5_length (today : PyDateTime) (serial : Nat) :
    (mkType5 today serial).data.length = 200 :=
  pad_right_length _ _

/-- Positions 3-5 of a Type-3 record: the airline code, left-aligned. -/
theorem mkType3_slice_airline (leg : Leg) (next_leg : Option Leg)
    (serial : Nat) :
    sliceStr (mkType3 leg next_leg serial) 2 3
      = pad_right (leg.aln.getD "DL") 3 := by
  rw [mkType3_data]
  rw [cat_extract _ 2 2 3 (by simp [mkType3fields])
    (by simp [mkType3fields, fieldsData_length, pad_right_slen])
    (by simp [mkType3fields, pad_right_slen])]
  simp [mkType3fields]

/-- Positions 6-9 of a Type-3 record: the flight number, right-aligned. -/
theorem mkType3_slice_flt (leg : Leg) (next_leg : Option Leg) (serial : Nat) :
    sliceStr (mkType3 leg next_leg serial) 5 4
      = pad_left (leg.fltNum.getD "") 4 ' ' := by
  rw [mkType3_data]
  rw [cat_extract _ 3 5 4 (by simp [mkType3fields])
    (by simp [mkType3fields, fieldsData_length, pad_right_slen])
    (by simp [mkType3fields, pad_left_slen4])]
  simp [mkType3fields]

/-- Positions 15-28 of a Type-3 record: the period of operation. -/
theorem mkType3_slice_period (leg : Leg) (next_leg : Option Leg)
    (serial : Nat) :
    sliceStr (mkType3 leg next_leg serial) 14 14
      = pad_right (format_ssim_date leg.deptDateTime
          ++ format_ssim_date leg.deptDateTime) 14 := by
  rw [mkType3_data]
  rw [cat_extract _ 7 14 14 (by simp [mkType3fields])
    (by simp [mkType3fields, fieldsData_length, pad_right_slen,
      pad_left_slen2, pad_left_slen4])
    (by simp [mkType3fields, pad_right_slen])]
  simp [mkType3fields]

/-- Positions 29-35 of a Type-3 record: the day-of-week field. -/
theorem mkType3_slice_dow (leg : Leg) (next_leg : Option Leg) (serial : Nat) :
    sliceStr (mkType3 leg next_leg serial) 28 7
      = pad_left (match leg.deptDateTime with
          | some dt => toString (isoWeekday dt)
          | none => "1") 7 ' ' := by
  rw [mkType3_data]
  rw [cat_extract _ 8 28 7 (by simp [mkType3fields])
    (by simp [mkType3fields, fieldsData_length, pad_right_slen,
      pad_left_slen2, pad_left_slen4])
    (by simp [mkType3fields, pad_left_slen7])]
  simp [mkType3fields]

/-- Positions 138-140 of a Type-3 record: the onward airline code. -/
theorem mkType3_slice_onwardAln (leg : Leg) (next_leg : Option Leg)
    (serial : Nat) :
    sliceStr (mkType3 leg next_leg serial) 137 3
      = pad_right (match next_leg with
          | some n => n.aln.getD ""
          | none => "") 3 := by
  rw [mkType3_data]
  rw [cat_extract _ 24 137 3 (by simp [mkType3fields])
    (by simp [mkType3fields, fieldsData_length, pad_right_slen,
      pad_left_slen2, pad_left_slen4, pad_left_slen7])
    (by simp [mkType3fields, pad_right_slen])]
  simp [mkType3fields]

/-- Positions 141-144 of a Type-3 record: the onward flight number. -/
theorem mkType3_slice_onwardFlt (leg : Leg) (next_leg : Option Leg)
    (serial : Nat) :
    sliceStr (mkType3 leg next_leg serial) 140 4
      = pad_left (match next_leg with
          | some n => n.fltNum.getD ""
          | none => "") 4 ' ' := by
  rw [mkType3_data]
  rw [cat_extract _ 25 140 4 (by simp [mkType3fields])
    (by simp [mkType3fields, fieldsData_length, pad_right_slen,
      pad_left_slen2, pad_left_slen4, pad_left_slen7])
    (by simp [mkType3fields, pad_left_slen4])]
  simp [mkType3fields]

/-- Positions 195-200 of a Type-3 record: the record serial. -/
theorem mkType3_slice_serial (leg : Leg) (next_leg : Option Leg)
    (serial : Nat) :
    sliceStr (mkType3 leg next_leg serial) 194 6
      = pad_left (toString serial) 6 '0' := by
  rw [mkType3_data]
  rw [cat_extract _ 31 194 6 (by simp [mkType3fields])
    (by simp [mkType3fields, fieldsData_length, pad_right_slen,
      pad_left_slen1, pad_left_slen2, pad_left_slen4, pad_left_slen7])
    (by simp [mkType3fields, pad_left_slen6])]
  simp [mkType3fields]

/-- Positions 195-200 of a Type-4 record: the record serial. -/
theorem mkType4_slice_serial (leg : Leg) (serial : Nat) :
    sliceStr (mkType4 leg serial) 194 6 = pad_left (toString serial) 6 '0' := by
  rw [mkType4_data]
  rw [cat_extract _ 15 194 6 (by simp [mkType4fields])
    (by simp [mkType4fields, fieldsData_length, pad_right_slen,
      pad_left_slen2, pad_left_slen3, pad_left_slen4])
    (by simp [mkType4fields, pad_left_slen6])]
  simp [mkType4fields]

/-- Positions 195-200 of the Type-5 trailer: the final record serial. -/
theorem mkType5_slice_serial (today : PyDateTime) (serial : Nat) :
    sliceStr (mkType5 today serial) 194 6 = pad_left (toString serial) 6 '0' := by
  rw [mkType5_data]
  rw [cat_extract _ 7 194 6 (by simp [mkType5fields])
    (by simp [mkType5fields, fieldsData_length, pad_right_slen,
      pad_left_slen1, pad_left_slen6, pad_left_slen7, pad_left_slen175])
    (by simp [mkType5fields, pad_left_slen6])]
  simp [mkType5fields]

/-! ## Emission structure lemmas -/

theorem specOnward_cons (sh : List (String × List Leg)) (pr : List String)
    (a : Leg) (bs : List Leg) (i : Nat) :
    specOnward sh pr (a :: bs) (i + 1) = specOnward sh pr bs i := by
  simp [specOnward]

theorem specEmitShell_nil (sh : List (String × List Leg)) (pr : List String)
    (serial : Nat) : specEmitShell sh pr [] serial = [] := by
  simp [specEmitShell]

theorem specEmitShell_cons (sh : List (String × List Leg)) (pr : List String)
    (a : Leg) (bs : List Leg) (serial : Nat) :
    specEmitShell sh pr (a :: bs) serial
      = mkType3 a (specOnward sh pr (a :: bs) 0) serial
        :: mkType4 a (serial + 1)
        :: specEmitShell sh pr bs (serial + 2) := by
  unfold specEmitShell
  rw [List.length_cons, List.range_succ_eq_map, List.flatMap_cons,
    List.flatMap_map]
  simp only [List.getD_cons_zero, Nat.mul_zero, Nat.add_zero,
    List.cons_append, List.nil_append, Nat.succ_eq_add_one, List.cons.injEq,
    true_and]
  refine congrArg (List.flatMap (List.range bs.length)) (funext fun i => ?_)
  rw [List.getD_cons_succ, specOnward_cons]
  rw [show serial + 2 * (i + 1) = serial + 2 + 2 * i from by ring]

/-- `emitLegs` computes exactly the specification's per-shell emission:
one Type-3/Type-4 pair per leg in order, onward legs as `specOnward`, and
the serial advanced by two per leg. -/
theorem emitLegs_eq_spec (sh : List (String × List Leg)) (pr : List String) :
    ∀ legs serial,
      emitLegs sh pr legs serial
        = (specEmitShell sh pr legs serial, serial + 2 * legs.length)
  | [], serial => by simp [emitLegs, specEmitShell_nil]
  | [leg], serial => by
      simp only [emitLegs, specEmitShell_cons, specEmitShell_nil, specOnward]
      simp only [List.length_singleton, Nat.mul_one, Prod.mk.injEq,
        List.getElem?_cons_zero, List.getElem?_cons_succ, List.getElem?_nil,
        Option.some_bind]
      refine ⟨?_, trivial⟩
      cases find_connecting_shell sh pr (leg.arvlSta.getD "") <;> rfl
  | leg :: nxt :: rest, serial => by
      have ih := emitLegs_eq_spec sh pr (nxt :: rest) (serial + 2)
      have h0 : specOnward sh pr (leg :: nxt :: rest) 0 = some nxt := by
        simp [specOnward]
      simp only [emitLegs, ih, specEmitShell_cons, h0, Prod.mk.injEq]
      refine ⟨trivial, ?_⟩
      simp only [List.length_cons]
      omega


theorem emitLegs_len (sh : List (String × List Leg)) (pr : List String)
    (legs : List Leg) (serial : Nat) :
    (emitLegs sh pr legs serial).1.length = 2 * legs.length := by
  rw [emitLegs_eq_spec]
  induction legs generalizing serial with
  | nil => simp [specEmitShell_nil]
  | cons a bs ih =>
      rw [specEmitShell_cons]
      simp only [List.length_cons, ih]
      omega

/-! ## Claim theorems -/

/-- C6: for every airport code and reference date, the static offset
estimator agrees with the reference definition `estimateOffsetSpec`: DST
exactly when the month is in 3..10, Eastern −4/−5, Central −5/−6,
Mountain −6/−7 with PHX pinned to −7 for every date, Pacific −7/−8, and
unknown codes following the Eastern rule.  Both sides are total Lean
functions, so the estimator never fails. -/
theorem claimC6_estimator (code : String) (d : PyDateTime) :
    estimate_us_timezone_offset code d = estimateOffsetSpec code d := by
  unfold estimate_us_timezone_offset estimateOffsetSpec
  by_cases hP : code = "PHX"
  · subst hP
    have h1 : ("PHX" : String) ∉ eastern_airports := by decide
    have h2 : ("PHX" : String) ∉ central_airports := by decide
    have h3 : ("PHX" : String) ∈ mountain_airports := by decide
    simp [h1, h2, h3]
  · simp [hP]

/-- C10: truncation direction follows alignment.  A left-aligned
(`pad_right`) field keeps the first `n` characters of an over-long string
and a right-aligned (`pad_left`) field keeps the last `n`; in particular a
Type-3 record encodes a five-digit flight number as its last four digits
at positions 6-9 and a four-character airline code as its first three
characters at positions 3-5. -/
theorem claimC10_truncation :
    (∀ (s : String) (n : Nat), n ≤ s.data.length →
      pad_right s n = String.mk (s.data.take n)) ∧
    (∀ (s : String) (n : Nat) (c : Char), n ≠ 0 → n ≤ s.data.length →
      pad_left s n c = String.mk (s.data.drop (s.data.length - n))) ∧
    (∀ (leg : Leg) (next : Option Leg) (serial : Nat),
      leg.fltNum = some "12345" →
      sliceStr (mkType3 leg next serial) 5 4 = "2345") ∧
    (∀ (leg : Leg) (next : Option Leg) (serial : Nat),
      leg.aln = some "ABCD" →
      sliceStr (mkType3 leg next serial) 2 3 = "ABC") := by
  refine ⟨?_, ?_, ?_, ?_⟩
  · intro s n h
    rw [pad_right_of_le s n h]
    rfl
  · intro s n c hn h
    rw [pad_left_of_le s n c h hn, sliceLast, if_neg hn]
  · intro leg next serial h
    rw [mkType3_slice_flt, h]
    decide
  · intro leg next serial h
    rw [mkType3_slice_airline, h]
    decide

/-- Witness for C10 at concrete inputs: airline "ABCD" keeps its first
three characters, flight number "12345" its last four. -/
theorem claimC10_truncation_witness :
    pad_right "ABCD" 3 = String.mk ("ABCD".data.take 3) ∧
    pad_left "12345" 4 ' '
      = String.mk ("12345".data.drop ("12345".data.length - 4)) ∧
    sliceStr (mkType3 { fltNum := some "12345" } none 3) 5 4 = "2345" ∧
    sliceStr (mkType3 { aln := some "ABCD" } none 3) 2 3 = "ABC" :=
  ⟨claimC10_truncation.1 "ABCD" 3 (by decide),
   claimC10_truncation.2.1 "12345" 4 ' ' (by decide) (by decide),
   claimC10_truncation.2.2.1 _ none 3 rfl,
   claimC10_truncation.2.2.2 _ none 3 rfl⟩

/-- C9: a leg with a null departure date-time still yields a full-width
Type-3 record whose period-of-operation field (positions 15-28) is
fourteen spaces and whose day-of-week field (positions 29-35) is the
digit 1 right-aligned in seven characters; the leg is still emitted as
one Type-3/Type-4 pair. -/
theorem claimC9_null_dep_datetime (leg : Leg) (next : Option Leg)
    (serial : Nat) (h : leg.deptDateTime = none) :
    sliceStr (mkType3 leg next serial) 14 14
      = String.mk (List.replicate 14 ' ') ∧
    sliceStr (mkType3 leg next serial) 28 7 = "      1" ∧
    (mkType3 leg next serial).data.length = 200 ∧
    (∀ (sh : List (String × List Leg)) (pr : List String) (s : Nat),
      (emitLegs sh pr [leg] s).1.length = 2) := by
  refine ⟨?_, ?_, mkType3_length leg next serial, ?_⟩
  · rw [mkType3_slice_period, h]
    decide
  · rw [mkType3_slice_dow, h]
    decide
  · intro sh pr s
    rw [emitLegs_len]
    rfl

/-- Witness for C9 at a concrete leg with no parseable departure date. -/
theorem claimC9_null_dep_datetime_witness :
    sliceStr (mkType3 legNoDate none 3) 14 14
      = String.mk (List.replicate 14 ' ') ∧
    sliceStr (mkType3 legNoDate none 3) 28 7 = "      1" :=
  ⟨(claimC9_null_dep_datetime legNoDate none 3 rfl).1,
   (claimC9_null_dep_datetime legNoDate none 3 rfl).2.1⟩



/-! ## C1: the leg-sequence sort -/

theorem mapM_keys_of_isSome :
    ∀ legs : List Leg, (∀ l ∈ legs, (legSortKey l).isSome) →
      legs.mapM (fun l => (legSortKey l).map (fun k => (k, l)))
        = some (legs.map (fun l => ((legSortKey l).getD 0, l)))
  | [], _ => rfl
  | l :: rest, h => by
      have hl := h l (by simp)
      obtain ⟨k, hk⟩ := Option.isSome_iff_exists.mp hl
      have ih := mapM_keys_of_isSome rest (fun x hx => h x (by simp [hx]))
      rw [List.mapM_cons, hk, ih]
      have hk0 : (legSortKey l).getD 0 = k := by rw [hk]; rfl
      simp [hk0]

theorem sortShell_of_isSome (legs : List Leg)
    (h : ∀ l ∈ legs, (legSortKey l).isSome) :
    sortShell legs
      = some ((List.insertionSort (fun a b => a.1 ≤ b.1)
          (legs.map (fun l => ((legSortKey l).getD 0, l)))).map (·.2)) := by
  rw [sortShell, mapM_keys_of_isSome legs h]
  rfl

/-- C1 as amended: a missing `Leg Seq num` column defaults the sort key to
the integer 1; and whenever every leg's key is present-or-defaultable
(missing or numeric), the shell sort succeeds and returns a permutation of
the legs that is ascending in the integer key. -/
theorem claimC1_amended :
    (∀ l : Leg, l.legSeqNum = none → legSortKey l = some 1) ∧
    (∀ legs : List Leg, (∀ l ∈ legs, (legSortKey l).isSome) →
      ∃ out, sortShell legs = some out ∧ out.Perm legs ∧
        out.Pairwise (fun l₁ l₂ =>
          (legSortKey l₁).getD 0 ≤ (legSortKey l₂).getD 0)) := by
  constructor
  · intro l h
    rw [legSortKey, h]
    rfl
  · intro legs h
    refine ⟨_, sortShell_of_isSome legs h, ?_, ?_⟩
    · have hperm := List.perm_insertionSort
        (fun a b : Int × Leg => a.1 ≤ b.1)
        (legs.map (fun l => ((legSortKey l).getD 0, l)))
      have := hperm.map Prod.snd
      simpa [Function.comp_def] using this
    · haveI : IsTotal (Int × Leg) (fun a b => a.1 ≤ b.1) :=
        ⟨fun a b => le_total a.1 b.1⟩
      haveI : IsTrans (Int × Leg) (fun a b => a.1 ≤ b.1) :=
        ⟨fun _ _ _ hab hbc => le_trans hab hbc⟩
      have hsorted := List.sorted_insertionSort
        (fun a b : Int × Leg => a.1 ≤ b.1)
        (legs.map (fun l => ((legSortKey l).getD 0, l)))
      rw [List.pairwise_map]
      have hmem : ∀ p ∈ List.insertionSort (fun a b : Int × Leg => a.1 ≤ b.1)
          (legs.map (fun l => ((legSortKey l).getD 0, l))),
          p.1 = (legSortKey p.2).getD 0 := by
        intro p hp
        have : p ∈ legs.map (fun l => ((legSortKey l).getD 0, l)) :=
          (List.perm_insertionSort _ _).mem_iff.mp hp
        obtain ⟨l, _, rfl⟩ := List.mem_map.mp this
        rfl
      refine hsorted.imp_of_mem ?_
      intro a b ha hb hab
      have h1 := hmem a ha
      have h2 := hmem b hb
      rw [← h1, ← h2]
      exact hab

/-- Witness for C1: a leg with no `Leg Seq num` column gets key 1, and a
two-leg shell with numeric keys sorts successfully. -/
theorem claimC1_amended_witness :
    legSortKey legNoDate = some 1 ∧
    (sortShell [legJA, legAJ]).isSome = true := by
  constructor
  · exact claimC1_amended.1 legNoDate rfl
  · obtain ⟨out, h1, _, _⟩ := claimC1_amended.2 [legJA, legAJ] (by decide)
    rw [h1]
    rfl

/-- C1 counterexample: a row whose `Leg Seq num` holds the non-numeric
value "abc" makes `int()` raise, so `read_low_csv` aborts instead of
defaulting the key to 1 and continuing. -/
theorem claimC1_counterexample : read_low_csv [rowBadSeq] [] = none := by
  decide


/-! ## C7: the flexible date parser -/

theorem pyStrip_empty_of_data_nil (s : String) (h : (pyStrip s).data = []) :
    pyStrip s = String.mk [] := by
  conv_lhs => rw [← show String.mk (pyStrip s).data = pyStrip s from rfl]
  rw [h]

/-- C7: the parser strips the input and tries exactly the eight claimed
formats in the claimed order, returning the first success; empty or
all-whitespace input yields no value; specifically `05/06/2025` parses as
month 5 / day 6 (the mm/dd formats come before dd/mm) and an unparsable
string yields `none` while `read_low_csv` still produces one leg per input
row. -/
theorem claimC7_flexible_dates :
    (∀ s : String, (pyStrip s).data = [] → parse_flexible_date s = none) ∧
    (∀ s : String,
      parse_flexible_date s = tryFormats claimFormats (pyStrip s)) ∧
    parse_flexible_date "05/06/2025" = some ⟨2025, 5, 6, 0, 0⟩ ∧
    parse_flexible_date "not-a-date" = none ∧
    (∀ (rows : List Row) (offs : List (String × ℚ))
        (out : List Leg × List (String × List Leg)),
      read_low_csv rows offs = some out → out.1.length = rows.length) := by
  have key : ∀ s : String,
      parse_flexible_date s = tryFormats claimFormats (pyStrip s) := by
    intro s
    by_cases h1 : s.data = [] ∨ (pyStrip s).data = []
    · rw [parse_flexible_date, if_pos h1]
      have hempty : (pyStrip s).data = [] := by
        rcases h1 with h | h
        · cases s with
          | mk d =>
              simp only at h
              subst h
              rfl
        · exact h
      rw [pyStrip_empty_of_data_nil s hempty]
      decide
    · rw [parse_flexible_date, if_neg h1]
      rfl
  refine ⟨?_, key, by decide, by decide, ?_⟩
  · intro s h
    rw [key s, pyStrip_empty_of_data_nil s h]
    decide
  · intro rows offs out h
    simp only [read_low_csv] at h
    obtain ⟨v, hv, hout⟩ := Option.map_eq_some'.mp h
    rw [← hout]
    simp

set_option maxRecDepth 40000 in
/-- Witness for C7: whitespace input yields no value, and a one-row input
with an unparsable date still yields exactly one leg. -/
theorem claimC7_flexible_dates_witness :
    parse_flexible_date "  " = none ∧
    ((read_low_csv [rowOK] []).getD ([], [])).1.length = [rowOK].length :=
  ⟨claimC7_flexible_dates.1 "  " (by decide),
   claimC7_flexible_dates.2.2.2.2 [rowOK] [] _ (by decide)⟩

/-! ## C8: determinism of the encoder -/

set_option maxRecDepth 40000 in
/-- C8 counterexample: the emitted bytes depend on the captured
`datetime.now()`.  With the same (empty) legs, shells and offset table but
the clock one day later, the Type-2 header differs, so two runs of the
encoder on the same parsed input are not byte-identical. -/
theorem claimC8_counterexample :
    write_ssim_with_segments [] [] nowC ≠ write_ssim_with_segments [] [] nowC2 := by
  decide

/-- C8 as amended: the encoder is a pure function of the parsed legs, the
shells map, and the captured generation timestamp; two runs agree whenever
all three agree (the offset table is already folded into the legs). -/
theorem claimC8_amended (legs₁ legs₂ : List Leg)
    (sh₁ sh₂ : List (String × List Leg)) (now₁ now₂ : PyDateTime)
    (h1 : legs₁ = legs₂) (h2 : sh₁ = sh₂) (h3 : now₁ = now₂) :
    write_ssim_with_segments legs₁ sh₁ now₁
      = write_ssim_with_segments legs₂ sh₂ now₂ := by
  rw [h1, h2, h3]

/-- Witness for C8 (amended) at the concrete two-rotation input. -/
theorem claimC8_amended_witness :
    write_ssim_with_segments allLegsC shellsC nowC
      = write_ssim_with_segments allLegsC shellsC nowC :=
  claimC8_amended allLegsC allLegsC shellsC shellsC nowC nowC rfl rfl rfl


/-! ## Chain traversal: supporting lemmas -/

theorem nodup_append_singleton (l : List String) (a : String)
    (h1 : l.Nodup) (h2 : a ∉ l) : (l ++ [a]).Nodup := by
  rw [List.nodup_append]
  refine ⟨h1, List.nodup_singleton a, ?_⟩
  intro x hx hxa
  have : x = a := by simpa using hxa
  subst this
  exact h2 hx

theorem nodup_subset_length (l₁ l₂ : List String) (h : l₁.Nodup)
    (hs : l₁ ⊆ l₂) : l₁.length ≤ l₂.length :=
  (h.subperm hs).length_le

theorem shellKeys_length (shells : List (String × List Leg)) :
    (shellKeys shells).length = shells.length := by
  simp [shellKeys]

theorem lookupShell_mem (shells : List (String × List Leg)) (sid : String)
    (h : sid ∈ shellKeys shells) : (sid, lookupShell shells sid) ∈ shells := by
  have hsome : (shells.find? (fun p => p.1 = sid)).isSome := by
    rw [List.find?_isSome]
    obtain ⟨p, hp, hps⟩ := List.mem_map.mp h
    exact ⟨p, hp, by simp [hps]⟩
  obtain ⟨p, hp⟩ := Option.isSome_iff_exists.mp hsome
  have hmem := List.mem_of_find?_eq_some hp
  have heq : p.1 = sid := by simpa using List.find?_some hp
  have hlu : lookupShell shells sid = p.2 := by simp [lookupShell, hp]
  rw [hlu, ← heq]
  simpa using hmem

theorem find_connecting_mem (shells : List (String × List Leg))
    (processed : List String) (arr : String) (nid : String)
    (h : find_connecting_shell shells processed arr = some nid) :
    nid ∈ shellKeys shells ∧ nid ∉ processed := by
  obtain ⟨p, hpmem, hf⟩ := List.exists_of_findSome?_eq_some h
  by_cases hp : p.1 ∈ processed
  · simp [hp] at hf
  · cases hlegs : p.2 with
    | nil => rw [hlegs] at hf; simp [hp] at hf
    | cons ff tl =>
        rw [hlegs] at hf
        by_cases hup : pyUpper (ff.deptSta.getD "") = pyUpper arr
        · simp only [if_neg hp, if_pos hup, Option.some.injEq] at hf
          subst hf
          exact ⟨List.mem_map.mpr ⟨p, hpmem, rfl⟩, hp⟩
        · simp [hp, hup] at hf

theorem head?_mem' (l : List String) (a : String) (h : l.head? = some a) :
    a ∈ l := by
  cases l with
  | nil => cases h
  | cons x xs =>
      have : x = a := by simpa using h
      subst this
      simp

theorem eq_singleton_of_all (l : List String) (a : String) (hn : l.Nodup)
    (ha : a ∈ l) (hall : ∀ x ∈ l, x = a) : l = [a] := by
  cases l with
  | nil => cases ha
  | cons x xs =>
      have hx : x = a := hall x (by simp)
      subst hx
      cases xs with
      | nil => rfl
      | cons y ys =>
          have hy : y = x := hall y (by simp)
          subst hy
          simp at hn

theorem filterNotMem_perm (keys processed : List String) (current : String)
    (hkn : keys.Nodup) (hc : current ∈ keys) (hcp : current ∉ processed) :
    List.Perm (keys.filter (fun s => decide (s ∉ processed)))
      (current :: keys.filter (fun s => decide (s ∉ processed ++ [current]))) := by
  have h1 : keys.filter (fun s => decide (s ∉ processed ++ [current]))
      = (keys.filter (fun s => decide (s ∉ processed))).filter
          (fun s => s != current) := by
    rw [List.filter_filter]
    apply List.filter_congr
    intro x _
    by_cases hxc : x = current <;> by_cases hxp : x ∈ processed <;>
      simp [hxc, hxp]
  have h2 : (keys.filter (fun s => decide (s ∉ processed))).filter
        (fun s => s != current)
      = (keys.filter (fun s => decide (s ∉ processed))).erase current :=
    ((hkn.filter _).erase_eq_filter current).symm
  have hcf : current ∈ keys.filter (fun s => decide (s ∉ processed)) :=
    List.mem_filter.mpr ⟨hc, by simpa using hcp⟩
  rw [h1, h2]
  exact List.perm_cons_erase hcf

theorem processed_lt (shells : List (String × List Leg))
    (_hk : (shellKeys shells).Nodup) (processed : List String) (current : String)
    (h1 : processed.Nodup) (h2 : ∀ x ∈ processed, x ∈ shellKeys shells)
    (h3 : current ∈ shellKeys shells) (h4 : current ∉ processed) :
    processed.length < shells.length := by
  have hsub : (processed ++ [current]).Nodup := nodup_append_singleton _ _ h1 h4
  have hs : (processed ++ [current]) ⊆ shellKeys shells := by
    intro x hx
    rcases List.mem_append.mp hx with h | h
    · exact h2 _ h
    · have : x = current := by simpa using h
      subst this
      exact h3
  have hlen := nodup_subset_length _ _ hsub hs
  rw [shellKeys_length] at hlen
  simp at hlen
  omega

theorem keys_map_lookup (shells : List (String × List Leg))
    (hk : (shellKeys shells).Nodup) :
    (shellKeys shells).map (lookupShell shells) = shells.map Prod.snd := by
  induction shells with
  | nil => rfl
  | cons p rest ih =>
      have hk1 : p.1 ∉ shellKeys rest :=
        (List.nodup_cons.mp (by simpa [shellKeys] using hk)).1
      have hk2 : (shellKeys rest).Nodup :=
        (List.nodup_cons.mp (by simpa [shellKeys] using hk)).2
      show (p.1 :: shellKeys rest).map (lookupShell (p :: rest))
          = p.2 :: rest.map Prod.snd
      rw [List.map_cons]
      congr 1
      · simp [lookupShell, List.find?]
      · rw [← ih hk2]
        apply List.map_congr_left
        intro k hkmem
        have hne : ¬(p.1 = k) := fun he => hk1 (he ▸ hkmem)
        simp [lookupShell, List.find?_cons, hne]


/-- The chained `while` loop, under the invariants the pipeline
establishes (unique rotation ids, nonempty shells): with fuel at least the
number of unvisited shells it terminates with `some`, visits exactly the
unvisited shells once each (in some order `ord`), emits `chainChunks` for
that order, and advances the serial by two per emitted leg. -/
theorem chainLoop_master (shells : List (String × List Leg))
    (hk : (shellKeys shells).Nodup) (hne : ∀ p ∈ shells, p.2 ≠ []) :
    ∀ (fuel : Nat) (processed : List String) (current : String) (serial : Nat),
      processed.Nodup → (∀ x ∈ processed, x ∈ shellKeys shells) →
      current ∈ shellKeys shells → current ∉ processed →
      shells.length - processed.length ≤ fuel →
      ∃ ord : List String,
        chainLoop shells fuel processed current serial
          = some (chainChunks shells ord processed serial,
              serial
                + 2 * (ord.map (fun sid => (lookupShell shells sid).length)).sum,
              ord)
          ∧ List.Perm ord
              ((shellKeys shells).filter (fun s => decide (s ∉ processed))) := by
  intro fuel
  induction fuel with
  | zero =>
      intro processed current serial h1 h2 h3 h4 h5
      exfalso
      have := processed_lt shells hk processed current h1 h2 h3 h4
      omega
  | succ fuel ih =>
      intro processed current serial h1 h2 h3 h4 h5
      have hguard : processed.length < shells.length :=
        processed_lt shells hk processed current h1 h2 h3 h4
      have hpc : (processed ++ [current]).Nodup :=
        nodup_append_singleton _ _ h1 h4
      have hpcs : ∀ x ∈ processed ++ [current], x ∈ shellKeys shells := by
        intro x hx
        rcases List.mem_append.mp hx with h | h
        · exact h2 _ h
        · have : x = current := by simpa using h
          subst this
          exact h3
      have hlegs_ne : lookupShell shells current ≠ [] :=
        hne _ (lookupShell_mem shells current h3)
      simp only [chainLoop]
      rw [if_pos hguard, if_neg h4, emitLegs_eq_spec]
      dsimp only
      by_cases hdone : processed.length + 1 < shells.length
      · rw [if_pos (by simpa using hdone)]
        obtain ⟨lastLeg, hlast⟩ : ∃ x, (lookupShell shells current).getLast? = some x := by
          cases hq : (lookupShell shells current).getLast? with
          | none => exact absurd (List.getLast?_eq_none_iff.mp hq) hlegs_ne
          | some x => exact ⟨x, rfl⟩
        rw [hlast]
        dsimp only
        have hrec_case : ∀ nid : String, nid ∈ shellKeys shells →
            nid ∉ processed ++ [current] →
            ∃ ord : List String,
              (chainLoop shells fuel (processed ++ [current]) nid
                    (serial + 2 * (lookupShell shells current).length)).map
                  (fun r => (specEmitShell shells (processed ++ [current])
                      (lookupShell shells current) serial ++ r.1,
                    r.2.1, current :: r.2.2))
                = some (chainChunks shells ord processed serial,
                    serial + 2 * (ord.map
                      (fun sid => (lookupShell shells sid).length)).sum,
                    ord)
              ∧ List.Perm ord ((shellKeys shells).filter
                  (fun s => decide (s ∉ processed))) := by
          intro nid hnidK hnidP
          obtain ⟨ord', hrec, hperm'⟩ := ih (processed ++ [current]) nid
            (serial + 2 * (lookupShell shells current).length)
            hpc hpcs hnidK hnidP (by simp; omega)
          refine ⟨current :: ord', ?_, ?_⟩
          · rw [hrec]
            dsimp only [Option.map]
            refine congrArg some ?_
            refine congrArg₂ Prod.mk rfl (congrArg₂ Prod.mk ?_ rfl)
            simp only [List.map_cons, List.sum_cons]
            ring
          · have hstep := filterNotMem_perm (shellKeys shells) processed current
              hk h3 h4
            exact (hperm'.cons current).trans hstep.symm
        cases hfind : find_connecting_shell shells (processed ++ [current])
            (lastLeg.arvlSta.getD "") with
        | some nid =>
            obtain ⟨hnidK, hnidP⟩ :=
              find_connecting_mem shells _ _ nid hfind
            dsimp only
            exact hrec_case nid hnidK hnidP
        | none =>
            cases hhead : ((shellKeys shells).filter
                (fun s => decide (s ∉ processed ++ [current]))).head? with
            | none =>
                exfalso
                have hempty := List.head?_eq_none_iff.mp hhead
                have hsubk : shellKeys shells ⊆ processed ++ [current] := by
                  intro k hkmem
                  by_contra hnk
                  have : k ∈ (shellKeys shells).filter
                      (fun s => decide (s ∉ processed ++ [current])) :=
                    List.mem_filter.mpr ⟨hkmem, by simpa using hnk⟩
                  rw [hempty] at this
                  cases this
                have := nodup_subset_length _ _ hk hsubk
                rw [shellKeys_length] at this
                simp at this
                omega
            | some nid =>
                have hmemf := head?_mem' _ _ hhead
                obtain ⟨hnidK, hnidP⟩ := List.mem_filter.mp hmemf
                dsimp only
                exact hrec_case nid hnidK (by simpa using hnidP)
      · rw [if_neg (by simpa using hdone)]
        refine ⟨[current], ?_, ?_⟩
        · simp only [chainChunks, List.append_nil, List.map_cons,
            List.map_nil, List.sum_cons, List.sum_nil, Nat.add_zero]
        · have hall : ∀ k ∈ shellKeys shells, k ∈ processed ++ [current] := by
            intro k hkm
            by_contra hnk
            have hsub2 : ((processed ++ [current]) ++ [k]).Nodup :=
              nodup_append_singleton _ _ hpc hnk
            have hs2 : ((processed ++ [current]) ++ [k]) ⊆ shellKeys shells := by
              intro x hx
              rcases List.mem_append.mp hx with h | h
              · exact hpcs _ h
              · have : x = k := by simpa using h
                subst this
                exact hkm
            have := nodup_subset_length _ _ hsub2 hs2
            rw [shellKeys_length] at this
            simp at this
            omega
          have hfil : (shellKeys shells).filter
              (fun s => decide (s ∉ processed)) = [current] := by
            apply eq_singleton_of_all _ _ (hk.filter _)
            · exact List.mem_filter.mpr ⟨h3, by simpa using h4⟩
            · intro x hx
              obtain ⟨hxk, hxp⟩ := List.mem_filter.mp hx
              rcases List.mem_append.mp (hall x hxk) with h | h
              · exact absurd h (by simpa using hxp)
              · simpa using h
          rw [hfil]


theorem sum_ord_eq_legsTotal (shells : List (String × List Leg))
    (hk : (shellKeys shells).Nodup) (ord : List String)
    (hperm : List.Perm ord (shellKeys shells)) :
    (ord.map (fun sid => (lookupShell shells sid).length)).sum
      = legsTotal shells := by
  have h1 : List.Perm (ord.map (fun sid => (lookupShell shells sid).length))
      ((shellKeys shells).map (fun sid => (lookupShell shells sid).length)) :=
    hperm.map _
  have h2 : (shellKeys shells).map (fun sid => (lookupShell shells sid).length)
      = (shells.map Prod.snd).map List.length := by
    have := congrArg (List.map List.length) (keys_map_lookup shells hk)
    simpa [List.map_map, Function.comp_def] using this
  rw [legsTotal, ← h2]
  exact h1.sum_eq

/-- `write_ssim_with_segments` on a pipeline-shaped shells map: the
header block, then `chainChunks` along some visit order `ord` that is a
permutation of the rotation ids, then the zero-fill block, the Type-5
trailer carrying serial `3 + 2·(number of legs)`, and the closing
zero-fill block. -/
theorem writer_master (all_legs : List Leg)
    (shells : List (String × List Leg)) (now : PyDateTime)
    (hk : (shellKeys shells).Nodup) (hne : ∀ p ∈ shells, p.2 ≠ [])
    (hsne : shells ≠ []) :
    ∃ ord : List String, List.Perm ord (shellKeys shells) ∧
      write_ssim_with_segments all_legs shells now
        = some (headLines all_legs now
            ++ chainChunks shells ord [] 3
            ++ List.replicate 4 zeroLine
            ++ [mkType5 now (3 + 2 * legsTotal shells)]
            ++ List.replicate 14 zeroLine) := by
  have hkeys_ne : shellKeys shells ≠ [] := by
    cases shells with
    | nil => exact absurd rfl hsne
    | cons p rest => simp [shellKeys]
  obtain ⟨k0, krest, hks⟩ := List.exists_cons_of_ne_nil hkeys_ne
  have hk0 : k0 ∈ shellKeys shells := by rw [hks]; simp
  obtain ⟨ord, hloop, hperm⟩ := chainLoop_master shells hk hne
    shells.length [] k0 3 (by simp) (by simp) hk0 (by simp) (by simp)
  have hpermKeys : List.Perm ord (shellKeys shells) := by
    have : (shellKeys shells).filter (fun s => decide (s ∉ ([] : List String)))
        = shellKeys shells := by
      apply List.filter_eq_self.mpr
      intro a _
      simp
    rwa [this] at hperm
  refine ⟨ord, hpermKeys, ?_⟩
  rw [write_ssim_with_segments, hks]
  dsimp only
  rw [hloop]
  dsimp only [Option.map]
  refine congrArg some ?_
  have hsum := sum_ord_eq_legsTotal shells hk ord hpermKeys
  rw [hsum]

/-- C3: onward references.  `emitLegs` emits exactly `specEmitShell`,
whose onward assignment is the next leg of the shell for non-last legs and
`find_connecting_shell`'s first unvisited case-insensitive match for the
last leg; the Type-3 onward airline/flight-number fields at positions
138-144 carry exactly that leg's airline code and flight number (blank
when there is none); and in the concrete two-rotation scenario the
JFK→ATL record carries rotation 2's airline and flight number. -/
theorem claimC3_onward :
    (∀ (sh : List (String × List Leg)) (pr : List String) (legs : List Leg)
        (serial : Nat),
      (emitLegs sh pr legs serial).1 = specEmitShell sh pr legs serial) ∧
    (∀ (leg : Leg) (next : Option Leg) (serial : Nat),
      sliceStr (mkType3 leg next serial) 137 3
          = pad_right (match next with
              | some n => n.aln.getD ""
              | none => "") 3 ∧
      sliceStr (mkType3 leg next serial) 140 4
          = pad_left (match next with
              | some n => n.fltNum.getD ""
              | none => "") 4 ' ') ∧
    ((write_ssim_with_segments allLegsC shellsC nowC).isSome = true ∧
     sliceStr (((write_ssim_with_segments allLegsC shellsC nowC).getD []).getD
         10 "") 137 3 = "DL " ∧
     sliceStr (((write_ssim_with_segments allLegsC shellsC nowC).getD []).getD
         10 "") 140 4 = " 202") := by
  refine ⟨?_, ?_, ?_, ?_, ?_⟩
  · intro sh pr legs serial
    rw [emitLegs_eq_spec]
  · intro leg next serial
    exact ⟨mkType3_slice_onwardAln leg next serial,
      mkType3_slice_onwardFlt leg next serial⟩
  · decide
  · decide
  · decide


/-! ## Lengths and serial positions of the emitted stream -/

theorem specEmitShell_length (sh : List (String × List Leg))
    (pr : List String) :
    ∀ (legs : List Leg) (serial : Nat),
      (specEmitShell sh pr legs serial).length = 2 * legs.length := by
  intro legs
  induction legs with
  | nil => intro serial; simp [specEmitShell_nil]
  | cons a bs ih =>
      intro serial
      rw [specEmitShell_cons]
      simp only [List.length_cons, ih]
      omega

theorem chainChunks_length (sh : List (String × List Leg)) :
    ∀ (ord : List String) (pr : List String) (serial : Nat),
      (chainChunks sh ord pr serial).length
        = 2 * (ord.map (fun sid => (lookupShell sh sid).length)).sum := by
  intro ord
  induction ord with
  | nil => intro pr serial; rfl
  | cons sid rest ih =>
      intro pr serial
      simp only [chainChunks, List.length_append, specEmitShell_length, ih,
        List.map_cons, List.sum_cons]
      omega

theorem specEmitShell_serial (sh : List (String × List Leg))
    (pr : List String) :
    ∀ (legs : List Leg) (serial j : Nat), j < 2 * legs.length →
      sliceStr ((specEmitShell sh pr legs serial).getD j "") 194 6
        = pad_left (toString (serial + j)) 6 '0' := by
  intro legs
  induction legs with
  | nil => intro serial j hj; simp at hj
  | cons a bs ih =>
      intro serial j hj
      rw [specEmitShell_cons]
      match j with
      | 0 =>
          simpa using mkType3_slice_serial a
            (specOnward sh pr (a :: bs) 0) serial
      | 1 =>
          simpa using mkType4_slice_serial a (serial + 1)
      | (j' + 2) =>
          have hlt : j' < 2 * bs.length := by
            simp only [List.length_cons] at hj
            omega
          have := ih (serial + 2) j' hlt
          simp only [List.getD_cons_succ]
          rw [this]
          congr 2
          omega

theorem chainChunks_serial (sh : List (String × List Leg)) :
    ∀ (ord : List String) (pr : List String) (serial j : Nat),
      j < (chainChunks sh ord pr serial).length →
      sliceStr ((chainChunks sh ord pr serial).getD j "") 194 6
        = pad_left (toString (serial + j)) 6 '0' := by
  intro ord
  induction ord with
  | nil => intro pr serial j hj; simp [chainChunks] at hj
  | cons sid rest ih =>
      intro pr serial j hj
      simp only [chainChunks] at hj ⊢
      rw [List.length_append] at hj
      by_cases hjl : j < (specEmitShell sh (pr ++ [sid])
          (lookupShell sh sid) serial).length
      · rw [List.getD_append _ _ _ _ hjl]
        exact specEmitShell_serial sh (pr ++ [sid]) _ serial j
          (by rwa [specEmitShell_length] at hjl)
      · push_neg at hjl
        rw [List.getD_append_right _ _ _ _ hjl]
        have hlen : (specEmitShell sh (pr ++ [sid])
            (lookupShell sh sid) serial).length
            = 2 * (lookupShell sh sid).length :=
          specEmitShell_length sh _ _ serial
        have := ih (pr ++ [sid]) (serial + 2 * (lookupShell sh sid).length)
          (j - (specEmitShell sh (pr ++ [sid])
            (lookupShell sh sid) serial).length) (by omega)
        rw [this]
        congr 2
        omega

theorem bannerLine_length : bannerLine.data.length = 200 := by
  rw [bannerLine, str_append_data, str_append_data]
  simp only [List.length_append, data_mk, List.length_replicate]
  rfl

theorem zeroLine_length : zeroLine.data.length = 200 := by
  rw [zeroLine, data_mk, List.length_replicate]

theorem header2_length (a b c : PyDateTime) :
    (header2 a b c).data.length = 200 := by
  rw [header2, str_append_data, List.length_append, pad_right_length]
  rfl

theorem headLines_200 (all_legs : List Leg) (now : PyDateTime) :
    ∀ l ∈ headLines all_legs now, l.data.length = 200 := by
  intro l hl
  rw [headLines] at hl
  rcases List.mem_cons.mp hl with rfl | hl
  · exact bannerLine_length
  rcases List.mem_append.mp hl with hl | hl
  · rcases List.mem_append.mp hl with hl | hl
    · exact (List.eq_of_mem_replicate hl) ▸ zeroLine_length
    · rw [List.mem_singleton] at hl
      rw [hl]
      exact header2_length _ _ _
  · exact (List.eq_of_mem_replicate hl) ▸ zeroLine_length

theorem headLines_length (all_legs : List Leg) (now : PyDateTime) :
    (headLines all_legs now).length = 10 := by
  simp [headLines]

theorem specEmitShell_200 (sh : List (String × List Leg)) (pr : List String) :
    ∀ (legs : List Leg) (serial : Nat), ∀ l ∈ specEmitShell sh pr legs serial,
      l.data.length = 200 := by
  intro legs
  induction legs with
  | nil => intro serial l hl; simp [specEmitShell_nil] at hl
  | cons a bs ih =>
      intro serial l hl
      rw [specEmitShell_cons] at hl
      rcases List.mem_cons.mp hl with rfl | hl
      · exact mkType3_length _ _ _
      rcases List.mem_cons.mp hl with rfl | hl
      · exact mkType4_length _ _
      exact ih (serial + 2) l hl

theorem chainLoop_200 (sh : List (String × List Leg)) :
    ∀ (fuel : Nat) (pr : List String) (cur : String) (serial : Nat)
      (res : List String × Nat × List String),
      chainLoop sh fuel pr cur serial = some res →
      ∀ l ∈ res.1, l.data.length = 200 := by
  intro fuel
  induction fuel with
  | zero => intro pr cur serial res h; simp [chainLoop] at h
  | succ fuel ih =>
      intro pr cur serial res h
      simp only [chainLoop] at h
      by_cases h1 : pr.length < sh.length
      · rw [if_pos h1, emitLegs_eq_spec] at h
        dsimp only at h
        by_cases h2 : (if cur ∈ pr then pr else pr ++ [cur]).length < sh.length
        · rw [if_pos h2] at h
          have hgen : ∀ (nid : String),
              (chainLoop sh fuel (if cur ∈ pr then pr else pr ++ [cur]) nid
                  (serial + 2 * (lookupShell sh cur).length)).map
                (fun r => (specEmitShell sh
                    (if cur ∈ pr then pr else pr ++ [cur])
                    (lookupShell sh cur) serial ++ r.1,
                  r.2.1, cur :: r.2.2)) = some res →
              ∀ l ∈ res.1, l.data.length = 200 := by
            intro nid h' l hl
            obtain ⟨r, hr, hres⟩ := Option.map_eq_some'.mp h'
            rw [← hres] at hl
            rcases List.mem_append.mp hl with hm | hm
            · exact specEmitShell_200 sh _ _ serial l hm
            · exact ih _ nid _ r hr l hm
          cases hlast : (lookupShell sh cur).getLast? with
          | none => rw [hlast] at h; simp at h
          | some lastLeg =>
              rw [hlast] at h
              dsimp only at h
              cases hfind : find_connecting_shell sh
                  (if cur ∈ pr then pr else pr ++ [cur])
                  (lastLeg.arvlSta.getD "") with
              | some nid =>
                  rw [hfind] at h
                  dsimp only at h
                  exact hgen nid h
              | none =>
                  rw [hfind] at h
                  dsimp only at h
                  cases hhead : ((shellKeys sh).filter (fun s =>
                      decide (s ∉ (if cur ∈ pr then pr else pr ++ [cur])))).head? with
                  | some nid =>
                      rw [hhead] at h
                      dsimp only at h
                      exact hgen nid h
                  | none =>
                      rw [hhead] at h
                      dsimp only at h
                      exact hgen cur h
        · rw [if_neg h2] at h
          injection h with h
          intro l hl
          rw [← h] at hl
          exact specEmitShell_200 sh _ _ serial l hl
      · rw [if_neg h1] at h
        injection h with h
        intro l hl
        rw [← h] at hl
        simp at hl

/-- C5: every line the chained writer emits — banner, zero-fill lines,
Type-2 header, every Type-3/Type-4 record, and the Type-5 trailer — is
exactly 200 characters before its newline. -/
theorem claimC5_line_length (all_legs : List Leg)
    (shells : List (String × List Leg)) (now : PyDateTime)
    (lines : List String)
    (h : write_ssim_with_segments all_legs shells now = some lines) :
    ∀ l ∈ lines, l.data.length = 200 := by
  rw [write_ssim_with_segments] at h
  cases hks : shellKeys shells with
  | nil =>
      rw [hks] at h
      dsimp only at h
      injection h with h
      rw [← h]
      exact headLines_200 all_legs now
  | cons k0 krest =>
      rw [hks] at h
      dsimp only at h
      obtain ⟨r, hr, hres⟩ := Option.map_eq_some'.mp h
      rw [← hres]
      refine List.forall_mem_append.mpr ⟨List.forall_mem_append.mpr
        ⟨List.forall_mem_append.mpr ⟨List.forall_mem_append.mpr
          ⟨headLines_200 all_legs now, chainLoop_200 shells _ _ _ _ r hr⟩,
        ?_⟩, ?_⟩, ?_⟩
      · intro l hl
        exact (List.eq_of_mem_replicate hl) ▸ zeroLine_length
      · intro l hl
        rw [List.mem_singleton] at hl
        rw [hl]
        exact mkType5_length _ _
      · intro l hl
        exact (List.eq_of_mem_replicate hl) ▸ zeroLine_length

set_option maxRecDepth 100000 in
/-- Witness for C5: the chained writer succeeds on the two-rotation
scenario and its first line is 200 characters long. -/
theorem claimC5_line_length_witness :
    (((write_ssim_with_segments allLegsC shellsC nowC).getD []).getD 0
      "").data.length = 200 :=
  claimC5_line_length allLegsC shellsC nowC
    ((write_ssim_with_segments allLegsC shellsC nowC).getD []) (by decide)
    (((write_ssim_with_segments allLegsC shellsC nowC).getD []).getD 0 "")
    (by decide)

/-- C2: on a pipeline-shaped shells map (unique rotation ids, each shell
nonempty) the chained traversal terminates, visits every shell exactly
once (the visit order is a duplicate-free permutation of the rotation
ids), and the data section consists of `chainChunks` along that order:
exactly one Type-3/Type-4 pair per leg, the legs visited being a
permutation of all input legs. -/
theorem claimC2_chain (all_legs : List Leg)
    (shells : List (String × List Leg)) (now : PyDateTime)
    (hk : (shellKeys shells).Nodup) (hne : ∀ p ∈ shells, p.2 ≠ [])
    (hsne : shells ≠ []) :
    ∃ ord : List String,
      List.Perm ord (shellKeys shells) ∧ ord.Nodup ∧
      write_ssim_with_segments all_legs shells now
        = some (headLines all_legs now
            ++ chainChunks shells ord [] 3
            ++ List.replicate 4 zeroLine
            ++ [mkType5 now (3 + 2 * legsTotal shells)]
            ++ List.replicate 14 zeroLine) ∧
      List.Perm (ord.map (fun sid => lookupShell shells sid)).flatten
        ((shells.map Prod.snd).flatten) ∧
      (chainChunks shells ord [] 3).length = 2 * legsTotal shells := by
  obtain ⟨ord, hperm, hw⟩ := writer_master all_legs shells now hk hne hsne
  refine ⟨ord, hperm, (hperm.nodup_iff).mpr hk, hw, ?_, ?_⟩
  · have h1 : List.Perm (ord.map (fun sid => lookupShell shells sid))
        ((shellKeys shells).map (lookupShell shells)) := hperm.map _
    rw [keys_map_lookup shells hk] at h1
    exact h1.flatten
  · rw [chainChunks_length, sum_ord_eq_legsTotal shells hk ord hperm]

/-- Witness for C2 at the concrete two-rotation scenario. -/
theorem claimC2_chain_witness :
    ∃ ord : List String,
      List.Perm ord (shellKeys shellsC) ∧ ord.Nodup ∧
      write_ssim_with_segments allLegsC shellsC nowC
        = some (headLines allLegsC nowC
            ++ chainChunks shellsC ord [] 3
            ++ List.replicate 4 zeroLine
            ++ [mkType5 nowC (3 + 2 * legsTotal shellsC)]
            ++ List.replicate 14 zeroLine) ∧
      List.Perm (ord.map (fun sid => lookupShell shellsC sid)).flatten
        ((shellsC.map Prod.snd).flatten) ∧
      (chainChunks shellsC ord [] 3).length = 2 * legsTotal shellsC :=
  claimC2_chain allLegsC shellsC nowC (by decide) (by decide) (by decide)

/-- C4: the record serials of the Type-3/Type-4 data records form the
contiguous ascending sequence 3, 4, ..., 2·N+2 (N the number of legs):
header and zero-fill lines consume no serial, the j-th data record carries
serial 3+j zero-padded to six digits at positions 195-200, and the Type-5
trailer carries the final value 3 + 2·N. -/
theorem claimC4_serials (all_legs : List Leg)
    (shells : List (String × List Leg)) (now : PyDateTime)
    (hk : (shellKeys shells).Nodup) (hne : ∀ p ∈ shells, p.2 ≠ [])
    (hsne : shells ≠ []) :
    ∃ lines : List String,
      write_ssim_with_segments all_legs shells now = some lines ∧
      lines.length = 29 + 2 * legsTotal shells ∧
      (∀ j < 2 * legsTotal shells,
        sliceStr (lines.getD (10 + j) "") 194 6
          = pad_left (toString (3 + j)) 6 '0') ∧
      sliceStr (lines.getD (14 + 2 * legsTotal shells) "") 194 6
        = pad_left (toString (3 + 2 * legsTotal shells)) 6 '0' := by
  obtain ⟨ord, hperm, hw⟩ := writer_master all_legs shells now hk hne hsne
  have hclen : (chainChunks shells ord [] 3).length = 2 * legsTotal shells := by
    rw [chainChunks_length, sum_ord_eq_legsTotal shells hk ord hperm]
  have hhlen := headLines_length all_legs now
  refine ⟨_, hw, ?_, ?_, ?_⟩
  · simp only [List.length_append, List.length_replicate, hhlen, hclen,
      List.length_singleton]
    omega
  · intro j hj
    rw [List.getD_append _ _ _ _ (by
      simp only [List.length_append, List.length_replicate, hhlen, hclen]
      omega)]
    rw [List.getD_append _ _ _ _ (by
      simp only [List.length_append, List.length_replicate, hhlen, hclen]
      omega)]
    rw [List.getD_append _ _ _ _ (by
      simp only [List.length_append, hhlen, hclen]
      omega)]
    rw [List.getD_append_right _ _ _ _ (by rw [hhlen]; omega)]
    rw [hhlen]
    have := chainChunks_serial shells ord [] 3 (10 + j - 10)
      (by rw [hclen]; omega)
    rw [this]
    congr 2
    omega
  · rw [List.getD_append _ _ _ _ (by
      simp only [List.length_append, List.length_replicate, hhlen, hclen,
        List.length_singleton]
      omega)]
    rw [List.getD_append_right _ _ _ _ (by
      simp only [List.length_append, List.length_replicate, hhlen, hclen]
      omega)]
    simp only [List.length_append, List.length_replicate, hhlen, hclen]
    rw [show 14 + 2 * legsTotal shells
        - (10 + 2 * legsTotal shells + 4) = 0 from by omega]
    simp only [List.getD_cons_zero]
    exact mkType5_slice_serial now (3 + 2 * legsTotal shells)

/-- Witness for C4 at the concrete two-rotation scenario. -/
theorem claimC4_serials_witness :
    ∃ lines : List String,
      write_ssim_with_segments allLegsC shellsC nowC = some lines ∧
      lines.length = 29 + 2 * legsTotal shellsC ∧
      (∀ j < 2 * legsTotal shellsC,
        sliceStr (lines.getD (10 + j) "") 194 6
          = pad_left (toString (3 + j)) 6 '0') ∧
      sliceStr (lines.getD (14 + 2 * legsTotal shellsC) "") 194 6
        = pad_left (toString (3 + 2 * legsTotal shellsC)) 6 '0' :=
  claimC4_serials allLegsC shellsC nowC (by decide) (by decide) (by decide)

end SSIM
